import Mathlib

/-!
Verification of the gomoku core: the board state machine in `game` (PlaceStone,
Undo, CheckWin) and the difficulty-tiered move-selection agent in `game/ai.go`.
Go integers are modelled as `Int` (no overflow is reachable: all values stay
tiny), Go's truncating integer division as `Int.tdiv`, and the board grid as a
total function `Int → Int → Player` whose reads are guarded by the same bounds
checks the source performs.  Mutating methods are modelled by explicit state
passing: a function that mutates the board returns the final board next to its
result, mirroring every write the source performs in order.
-/

namespace Gomoku

/-- Cell value. Go: `type Player int` with `Empty, Black, White = iota`. -/
inductive Player where
  | empty
  | black
  | white
deriving DecidableEq, Repr

/-- The grid, read as `g row col` like Go `b.Grid[row][col]`. -/
abbrev Grid := Int → Int → Player

/-- Go: `BoardSize = 15`. -/
def boardSize : Int := 15

/-- Go: `WinCondition = 5`. -/
def winCondition : Nat := 5

/-- Go struct `Board`. -/
structure Board where
  grid : Grid
  currentTurn : Player
  moveHistory : List (Int × Int)
  gameFinished : Bool

/-- Go `NewBoard()`: zero-valued grid (all `Empty`), Black to move. -/
def newBoard : Board :=
  { grid := fun _ _ => Player.empty
    currentTurn := Player.black
    moveHistory := []
    gameFinished := false }

/-- Go `(b *Board) isValidPosition(row, col int) bool`. -/
def isValidPosition (row col : Int) : Bool :=
  decide (0 ≤ row) && decide (row < boardSize) && decide (0 ≤ col) && decide (col < boardSize)

/-- Go `(b *Board) nextPlayer() Player`, as a function of the current turn. -/
def nextPlayer (turn : Player) : Player :=
  if turn = Player.black then Player.white else Player.black

/-- Writing one cell of the grid: Go `b.Grid[row][col] = p`. -/
def setCell (g : Grid) (row col : Int) (p : Player) : Grid :=
  fun r c => if r = row ∧ c = col then p else g r c

/-- The walk inside Go `CheckWin`: `for i := 1; i < WinCondition; i++ { r, c :=
row+dir[0]*i, col+dir[1]*i; if !b.isValidPosition(r, c) || b.Grid[r][c] != player
{ break }; count++ }` — the number of contiguous cells equal to `p` reached from
`(r, c)` by stepping `(dr, dc)`, walking at most `fuel` steps. -/
def lineCount (g : Grid) (p : Player) (dr dc : Int) : Nat → Int → Int → Nat
  | 0, _, _ => 0
  | fuel + 1, r, c =>
    let r2 := r + dr
    let c2 := c + dc
    if isValidPosition r2 c2 && (g r2 c2 == p) then lineCount g p dr dc fuel r2 c2 + 1
    else 0

/-- The fixed table of the 4 axis directions shared by all detectors.
Go: `{{1, 0}, {0, 1}, {1, 1}, {1, -1}}`. -/
def directions : List (Int × Int) := [(1, 0), (0, 1), (1, 1), (1, -1)]

/-- Go `(b *Board) CheckWin(row, col int) bool`: for each axis, 1 + forward walk
+ backward walk (each capped at `WinCondition - 1` steps); true once any axis
count reaches `WinCondition`.  It reads only the grid. -/
def checkWin (g : Grid) (row col : Int) : Bool :=
  let player := g row col
  directions.any fun d =>
    decide (winCondition ≤
      1 + lineCount g player d.1 d.2 (winCondition - 1) row col
        + lineCount g player (-d.1) (-d.2) (winCondition - 1) row col)

/-- The four distinct error values returned by the board operations
(`errors.New` messages in the source, in textual order). -/
inductive GameError where
  | outOfBounds
  | cellOccupied
  | gameAlreadyFinished
  | noMovesToUndo
deriving DecidableEq, Repr

/-- Go `(b *Board) PlaceStone(row, col int) error`, returning the mutated board
next to the error value (`none` = success). -/
def placeStone (b : Board) (row col : Int) : Board × Option GameError :=
  if row < 0 ∨ boardSize ≤ row ∨ col < 0 ∨ boardSize ≤ col then
    (b, some GameError.outOfBounds)
  else if b.grid row col ≠ Player.empty then
    (b, some GameError.cellOccupied)
  else if b.gameFinished then
    (b, some GameError.gameAlreadyFinished)
  else
    let g2 := setCell b.grid row col b.currentTurn
    let hist2 := b.moveHistory ++ [(row, col)]
    if checkWin g2 row col then
      ({ b with grid := g2, moveHistory := hist2, gameFinished := true }, none)
    else
      ({ b with grid := g2, moveHistory := hist2, currentTurn := nextPlayer b.currentTurn },
        none)

/-- Go `(b *Board) Undo() error`: pops `MoveHistory[len-1]`, clears that cell,
flips the turn and unconditionally clears the terminal flag. -/
def undo (b : Board) : Board × Option GameError :=
  if b.moveHistory.length = 0 then
    (b, some GameError.noMovesToUndo)
  else
    let lastMove := b.moveHistory.getD (b.moveHistory.length - 1) (0, 0)
    ({ b with
        grid := setCell b.grid lastMove.1 lastMove.2 Player.empty
        moveHistory := b.moveHistory.dropLast
        currentTurn := nextPlayer b.currentTurn
        gameFinished := false }, none)

/-- Length of the contiguous run of cells holding the same value as `(row, col)`,
extending through `(row, col)` in both directions of axis `d` (the spec's notion
of a run; fuel 14 never binds, since a walk leaves the board in at most 14
steps). -/
def runLen (g : Grid) (row col : Int) (d : Int × Int) : Nat :=
  1 + lineCount g (g row col) d.1 d.2 14 row col
    + lineCount g (g row col) (-d.1) (-d.2) 14 row col

theorem setCell_self (g : Grid) (row col : Int) (p : Player) :
    setCell g row col p row col = p := by
  simp [setCell]

theorem setCell_restore (g : Grid) (row col : Int) (p : Player)
    (h : g row col = Player.empty) (r c : Int) :
    setCell (setCell g row col p) row col Player.empty r c = g r c := by
  by_cases hc : r = row ∧ c = col
  · simp [setCell, hc, ← h, hc.1, hc.2]
  · simp [setCell, hc]

theorem nextPlayer_nextPlayer (p : Player) (h : p ≠ Player.empty) :
    nextPlayer (nextPlayer p) = p := by
  cases p <;> simp_all [nextPlayer]

theorem lineCount_eq_min (g : Grid) (p : Player) (dr dc : Int) :
    ∀ (n m : Nat), n ≤ m → ∀ (r c : Int),
      lineCount g p dr dc n r c = min (lineCount g p dr dc m r c) n := by
  intro n
  induction n with
  | zero => intro m _ r c; simp [lineCount]
  | succ k ih =>
    intro m hm r c
    obtain ⟨m', rfl⟩ : ∃ m', m = m' + 1 := ⟨m - 1, by omega⟩
    simp only [lineCount]
    by_cases hstep : (isValidPosition (r + dr) (c + dc) && (g (r + dr) (c + dc) == p)) = true
    · rw [if_pos hstep, if_pos hstep, ih m' (by omega)]
      omega
    · rw [if_neg hstep, if_neg hstep]
      simp

theorem checkWin_eq_true_iff (g : Grid) (row col : Int) :
    checkWin g row col = true ↔ ∃ d ∈ directions, winCondition ≤ runLen g row col d := by
  simp only [checkWin, List.any_eq_true, decide_eq_true_eq]
  constructor
  · rintro ⟨d, hd, hle⟩
    refine ⟨d, hd, ?_⟩
    have hf := lineCount_eq_min g (g row col) d.1 d.2 (winCondition - 1) 14 (by norm_num [winCondition]) row col
    have hb := lineCount_eq_min g (g row col) (-d.1) (-d.2) (winCondition - 1) 14 (by norm_num [winCondition]) row col
    simp only [runLen]
    simp only [winCondition] at hf hb hle ⊢
    omega
  · rintro ⟨d, hd, hle⟩
    refine ⟨d, hd, ?_⟩
    have hf := lineCount_eq_min g (g row col) d.1 d.2 (winCondition - 1) 14 (by norm_num [winCondition]) row col
    have hb := lineCount_eq_min g (g row col) (-d.1) (-d.2) (winCondition - 1) 14 (by norm_num [winCondition]) row col
    simp only [runLen] at hle
    simp only [winCondition] at hf hb hle ⊢
    omega

theorem placeStone_success_eq (b : Board) (row col : Int)
    (h1 : 0 ≤ row) (h2 : row < boardSize) (h3 : 0 ≤ col) (h4 : col < boardSize)
    (hempty : b.grid row col = Player.empty) (hfin : b.gameFinished = false) :
    placeStone b row col =
      (if checkWin (setCell b.grid row col b.currentTurn) row col then
        { b with grid := setCell b.grid row col b.currentTurn
                 moveHistory := b.moveHistory ++ [(row, col)]
                 gameFinished := true }
      else
        { b with grid := setCell b.grid row col b.currentTurn
                 moveHistory := b.moveHistory ++ [(row, col)]
                 currentTurn := nextPlayer b.currentTurn }, none) := by
  have hcond : ¬(row < 0 ∨ boardSize ≤ row ∨ col < 0 ∨ boardSize ≤ col) := by omega
  rw [placeStone, if_neg hcond, if_neg (by simp [hempty]), if_neg (by simp [hfin])]
  dsimp only
  split <;> rfl

theorem getD_concat_length (l : List (Int × Int)) (x : Int × Int) :
    (l ++ [x]).getD ((l ++ [x]).length - 1) (0, 0) = x := by
  simp [List.getD]

theorem undo_concat (b : Board) (l : List (Int × Int)) (x : Int × Int)
    (h : b.moveHistory = l ++ [x]) :
    undo b = ({ b with grid := setCell b.grid x.1 x.2 Player.empty
                       moveHistory := l
                       currentTurn := nextPlayer b.currentTurn
                       gameFinished := false }, none) := by
  rw [undo, if_neg (by simp [h])]
  simp only [h, getD_concat_length, List.dropLast_concat]

/-- C1: on a non-finished board, placing on an in-bounds empty cell succeeds;
afterwards the cell holds the player who was to move, `(row, col)` is appended
as the last entry of the move history, and if the new stone completes a
five-in-a-row per `CheckWin` the terminal flag is set with the turn unchanged,
otherwise the flag stays false and the turn passes to the other player. -/
theorem placeStone_success_spec (b : Board) (row col : Int)
    (h1 : 0 ≤ row) (h2 : row < boardSize) (h3 : 0 ≤ col) (h4 : col < boardSize)
    (hempty : b.grid row col = Player.empty) (hfin : b.gameFinished = false) :
    (placeStone b row col).2 = none ∧
    (placeStone b row col).1.grid row col = b.currentTurn ∧
    (placeStone b row col).1.moveHistory = b.moveHistory ++ [(row, col)] ∧
    (checkWin (setCell b.grid row col b.currentTurn) row col = true →
      (placeStone b row col).1.gameFinished = true ∧
      (placeStone b row col).1.currentTurn = b.currentTurn) ∧
    (checkWin (setCell b.grid row col b.currentTurn) row col = false →
      (placeStone b row col).1.gameFinished = false ∧
      (placeStone b row col).1.currentTurn = nextPlayer b.currentTurn) := by
  rw [placeStone_success_eq b row col h1 h2 h3 h4 hempty hfin]
  by_cases hw : checkWin (setCell b.grid row col b.currentTurn) row col = true
  · simp [hw, setCell_self, hfin]
  · simp only [Bool.not_eq_true] at hw
    simp [hw, setCell_self, hfin]

/-- Witness for C1 at the fresh board and the center cell: the placement
succeeds, writes Black, appends the move and toggles the turn. -/
theorem placeStone_success_spec_witness :
    (placeStone newBoard 7 7).2 = none ∧
    (placeStone newBoard 7 7).1.grid 7 7 = Player.black ∧
    (placeStone newBoard 7 7).1.moveHistory = [(7, 7)] ∧
    (placeStone newBoard 7 7).1.gameFinished = false ∧
    (placeStone newBoard 7 7).1.currentTurn = Player.white := by
  have h := placeStone_success_spec newBoard 7 7 (by norm_num) (by norm_num [boardSize])
    (by norm_num) (by norm_num [boardSize]) rfl rfl
  have hw : checkWin (setCell newBoard.grid 7 7 newBoard.currentTurn) 7 7 = false := by decide
  exact ⟨h.1, h.2.1, h.2.2.1, (h.2.2.2.2 hw).1, (h.2.2.2.2 hw).2⟩

/-- Example board for C2's counterexample: Black has an open four on row 0,
White three stones on row 5, Black to move.  Placing at `(0, 4)` wins. -/
def gridFourBlack : Grid := fun r c =>
  if r = 0 ∧ (c = 0 ∨ c = 1 ∨ c = 2 ∨ c = 3) then Player.black
  else if r = 5 ∧ (c = 5 ∨ c = 6 ∨ c = 7) then Player.white
  else Player.empty

def boardFourBlack : Board :=
  { grid := gridFourBlack
    currentTurn := Player.black
    moveHistory := [(0, 0), (5, 5), (0, 1), (5, 6), (0, 2), (5, 7), (0, 3)]
    gameFinished := false }

/-- Counterexample to C2 as stated: placing the winning stone `(0, 4)` on
`boardFourBlack` succeeds and finishes the game, but `Undo` then flips the turn
(PlaceStone had left it unchanged), so the pre-move current player (Black) is
not restored. -/
theorem place_undo_not_roundtrip_on_win :
    (placeStone boardFourBlack 0 4).2 = none ∧
    boardFourBlack.gameFinished = false ∧
    boardFourBlack.grid 0 4 = Player.empty ∧
    boardFourBlack.currentTurn = Player.black ∧
    (undo (placeStone boardFourBlack 0 4).1).2 = none ∧
    (undo (placeStone boardFourBlack 0 4).1).1.currentTurn = Player.white := by
  constructor
  · decide
  · constructor
    · rfl
    · constructor
      · decide
      · constructor
        · rfl
        · constructor
          · decide
          · decide

/-- C2 (amended): placing then undoing restores the grid (pointwise), the move
history and the terminal flag; the current player is restored exactly when the
placed stone did not complete a five-in-a-row, and is flipped to the other
player when it did (stated for a board whose turn is an actual player). -/
theorem place_undo_roundtrip (b : Board) (row col : Int)
    (h1 : 0 ≤ row) (h2 : row < boardSize) (h3 : 0 ≤ col) (h4 : col < boardSize)
    (hempty : b.grid row col = Player.empty) (hfin : b.gameFinished = false)
    (hturn : b.currentTurn ≠ Player.empty) :
    (∀ r c, (undo (placeStone b row col).1).1.grid r c = b.grid r c) ∧
    (undo (placeStone b row col).1).1.moveHistory = b.moveHistory ∧
    (undo (placeStone b row col).1).1.gameFinished = false ∧
    (checkWin (setCell b.grid row col b.currentTurn) row col = false →
      (undo (placeStone b row col).1).1.currentTurn = b.currentTurn) ∧
    (checkWin (setCell b.grid row col b.currentTurn) row col = true →
      (undo (placeStone b row col).1).1.currentTurn = nextPlayer b.currentTurn) := by
  rw [placeStone_success_eq b row col h1 h2 h3 h4 hempty hfin]
  by_cases hw : checkWin (setCell b.grid row col b.currentTurn) row col = true
  · rw [if_pos hw]
    rw [undo_concat _ b.moveHistory (row, col) rfl]
    refine ⟨fun r c => setCell_restore b.grid row col b.currentTurn hempty r c, rfl, rfl, ?_, ?_⟩
    · intro hcontra; rw [hw] at hcontra; cases hcontra
    · intro _; rfl
  · simp only [Bool.not_eq_true] at hw
    rw [if_neg (by simp [hw])]
    rw [undo_concat _ b.moveHistory (row, col) rfl]
    refine ⟨fun r c => setCell_restore b.grid row col b.currentTurn hempty r c, rfl, rfl, ?_, ?_⟩
    · intro _; exact nextPlayer_nextPlayer b.currentTurn hturn
    · intro hcontra; rw [hw] at hcontra; cases hcontra

/-- Witness for C2's amended theorem: placing at the center of a fresh board
and undoing restores the empty cell, the empty history, and Black to move. -/
theorem place_undo_roundtrip_witness :
    (undo (placeStone newBoard 7 7).1).1.grid 7 7 = Player.empty ∧
    (undo (placeStone newBoard 7 7).1).1.moveHistory = [] ∧
    (undo (placeStone newBoard 7 7).1).1.gameFinished = false ∧
    (undo (placeStone newBoard 7 7).1).1.currentTurn = Player.black := by
  have h := place_undo_roundtrip newBoard 7 7 (by norm_num) (by norm_num [boardSize])
    (by norm_num) (by norm_num [boardSize]) rfl rfl (by decide)
  have hw : checkWin (setCell newBoard.grid 7 7 newBoard.currentTurn) 7 7 = false := by decide
  exact ⟨h.1 7 7, h.2.1, h.2.2.1, h.2.2.2.1 hw⟩

theorem undo_error_iff (b : Board) :
    (undo b).2 = some GameError.noMovesToUndo ↔ b.moveHistory = [] := by
  rw [undo]
  by_cases hh : b.moveHistory.length = 0
  · rw [if_pos hh]
    simp [List.length_eq_zero.mp hh]
  · rw [if_neg hh]
    simp only [List.length_eq_zero] at hh
    simp [hh]

theorem undo_error_unchanged (b : Board) : (undo b).2 ≠ none → (undo b).1 = b := by
  rw [undo]
  by_cases hh : b.moveHistory.length = 0
  · rw [if_pos hh]
    intro _
    rfl
  · rw [if_neg hh]
    intro hcontra
    simp at hcontra

/-- C5: `PlaceStone` errors exactly when the coordinates are out of `[0, N)`
(OutOfBounds), else when the target cell is occupied (CellOccupied), else when
the terminal flag is set (GameAlreadyFinished); `Undo` errors exactly when the
history is empty (NoMovesToUndo); and every error return leaves the whole board
unchanged. -/
theorem board_error_spec (b : Board) (row col : Int) :
    ((placeStone b row col).2 = some GameError.outOfBounds ↔
      (row < 0 ∨ boardSize ≤ row ∨ col < 0 ∨ boardSize ≤ col)) ∧
    ((placeStone b row col).2 = some GameError.cellOccupied ↔
      (¬(row < 0 ∨ boardSize ≤ row ∨ col < 0 ∨ boardSize ≤ col) ∧
        b.grid row col ≠ Player.empty)) ∧
    ((placeStone b row col).2 = some GameError.gameAlreadyFinished ↔
      (¬(row < 0 ∨ boardSize ≤ row ∨ col < 0 ∨ boardSize ≤ col) ∧
        b.grid row col = Player.empty ∧ b.gameFinished = true)) ∧
    ((placeStone b row col).2 ≠ none ↔
      ((row < 0 ∨ boardSize ≤ row ∨ col < 0 ∨ boardSize ≤ col) ∨
        b.grid row col ≠ Player.empty ∨ b.gameFinished = true)) ∧
    ((placeStone b row col).2 ≠ none → (placeStone b row col).1 = b) ∧
    ((undo b).2 = some GameError.noMovesToUndo ↔ b.moveHistory = []) ∧
    ((undo b).2 ≠ none → (undo b).1 = b) := by
  by_cases hoob : row < 0 ∨ boardSize ≤ row ∨ col < 0 ∨ boardSize ≤ col
  · have hps : placeStone b row col = (b, some GameError.outOfBounds) := by
      rw [placeStone, if_pos hoob]
    refine ⟨by simp [hps, hoob], by simp [hps, hoob], by simp [hps, hoob],
      by simp [hps, hoob], by simp [hps], ?_, ?_⟩
    · exact undo_error_iff b
    · exact undo_error_unchanged b
  · by_cases hocc : b.grid row col ≠ Player.empty
    · have hps : placeStone b row col = (b, some GameError.cellOccupied) := by
        rw [placeStone, if_neg hoob, if_pos hocc]
      refine ⟨by simp [hps, hoob], by simp [hps, hoob, hocc], by simp [hps, hocc],
        by simp [hps, hocc], by simp [hps], ?_, ?_⟩
      · exact undo_error_iff b
      · exact undo_error_unchanged b
    · simp only [not_not] at hocc
      by_cases hfin : b.gameFinished = true
      · have hps : placeStone b row col = (b, some GameError.gameAlreadyFinished) := by
          rw [placeStone, if_neg hoob, if_neg (by simp [hocc]), if_pos hfin]
        refine ⟨by simp [hps, hoob], by simp [hps, hocc], by simp [hps, hoob, hocc, hfin],
          by simp [hps, hfin], by simp [hps], ?_, ?_⟩
        · exact undo_error_iff b
        · exact undo_error_unchanged b
      · simp only [Bool.not_eq_true] at hfin
        have hps : (placeStone b row col).2 = none := by
          rw [placeStone_success_eq b row col (by omega) (by omega) (by omega) (by omega)
            hocc hfin]
        refine ⟨by simp [hps, hoob], by simp [hps, hocc], by simp [hps, hfin],
          by simp [hps, hoob, hocc, hfin], by simp [hps], ?_, ?_⟩
        · exact undo_error_iff b
        · exact undo_error_unchanged b

/-- Witness for C5: placing on the occupied cell `(5, 5)` of `boardFourBlack`
fails with CellOccupied and leaves the board unchanged, and `Undo` on the fresh
(empty-history) board fails with NoMovesToUndo. -/
theorem board_error_spec_witness :
    (placeStone boardFourBlack 5 5).2 = some GameError.cellOccupied ∧
    (placeStone boardFourBlack 5 5).1 = boardFourBlack ∧
    (undo newBoard).2 = some GameError.noMovesToUndo := by
  have h := board_error_spec boardFourBlack 5 5
  have h2 := board_error_spec newBoard 0 0
  refine ⟨h.2.1.mpr ⟨by decide, by decide⟩, h.2.2.2.2.1 ?_, h2.2.2.2.2.2.1.mpr rfl⟩
  rw [h.2.1.mpr ⟨by decide, by decide⟩]
  simp

/-- C6: for an in-bounds occupied cell, `CheckWin` returns true exactly when
some of the 4 axes carries a contiguous same-player run of length at least 5
through the cell; it is a function of the grid alone (move history never
appears). -/
theorem checkWin_iff_run (g : Grid) (row col : Int)
    (h1 : 0 ≤ row) (h2 : row < boardSize) (h3 : 0 ≤ col) (h4 : col < boardSize)
    (hocc : g row col ≠ Player.empty) :
    (checkWin g row col = true ↔ ∃ d ∈ directions, winCondition ≤ runLen g row col d) :=
  checkWin_eq_true_iff g row col

/-- Grids used as witnesses for C6: a five-in-a-row through `(7, 7)` for each
of the 4 axes, and a four-in-a-row blocked at both ends. -/
def gridFiveRow : Grid := fun r c =>
  if r = 7 ∧ (c = 5 ∨ c = 6 ∨ c = 7 ∨ c = 8 ∨ c = 9) then Player.black else Player.empty

def gridBlockedFour : Grid := fun r c =>
  if r = 7 ∧ (c = 5 ∨ c = 6 ∨ c = 7 ∨ c = 8) then Player.black
  else if r = 7 ∧ (c = 4 ∨ c = 9) then Player.white
  else Player.empty

/-- Witness for C6: on `gridFiveRow` the horizontal run through `(7, 7)` has
length 5 and `CheckWin` is true; on `gridBlockedFour` every axis run through
`(7, 7)` is shorter than 5 and `CheckWin` is false. -/
theorem checkWin_iff_run_witness :
    checkWin gridFiveRow 7 7 = true ∧ checkWin gridBlockedFour 7 7 = false := by
  constructor
  · exact (checkWin_iff_run gridFiveRow 7 7 (by norm_num) (by norm_num [boardSize])
      (by norm_num) (by norm_num [boardSize]) (by decide)).mpr
      ⟨(0, 1), by decide, by decide⟩
  · have h := checkWin_iff_run gridBlockedFour 7 7 (by norm_num) (by norm_num [boardSize])
      (by norm_num) (by norm_num [boardSize]) (by decide)
    by_cases hw : checkWin gridBlockedFour 7 7 = true
    · exfalso
      have := h.mp hw
      revert this
      decide
    · simpa using hw

/-- C10: on an in-bounds empty cell `CheckWin` takes the stored value — Empty —
as the player, so it returns true as soon as some axis carries at least 5
contiguous empty cells through the cell, even though no player has five in a
row. -/
theorem checkWin_true_on_empty_run (g : Grid) (row col : Int)
    (h1 : 0 ≤ row) (h2 : row < boardSize) (h3 : 0 ≤ col) (h4 : col < boardSize)
    (hempty : g row col = Player.empty)
    (hrun : ∃ d ∈ directions, winCondition ≤ runLen g row col d) :
    checkWin g row col = true :=
  (checkWin_eq_true_iff g row col).mpr hrun

/-- Witness for C10: the completely empty board reports a "win" at the center
cell. -/
theorem checkWin_true_on_empty_run_witness :
    newBoard.grid 7 7 = Player.empty ∧ checkWin newBoard.grid 7 7 = true := by
  refine ⟨rfl, checkWin_true_on_empty_run newBoard.grid 7 7 (by norm_num)
    (by norm_num [boardSize]) (by norm_num) (by norm_num [boardSize]) rfl
    ⟨(1, 0), by decide, by decide⟩⟩

/-- Go `type Difficulty int` with `Easy, Medium, Hard` (closed enum per the spec). -/
inductive Difficulty where
  | easy
  | medium
  | hard
deriving DecidableEq, Repr

/-- Go struct `AI`. -/
structure AI where
  player : Player
  difficulty : Difficulty

/-- Go `(ai *AI) getOpponent() Player`. -/
def getOpponent (ai : AI) : Player :=
  if ai.player = Player.black then Player.white else Player.black

/-- Row-major enumeration of all board cells:
`for i := 0; i < BoardSize; i++ { for j := 0; j < BoardSize; j++ }`. -/
def cells : List (Int × Int) :=
  (List.range 15).flatMap fun (i : Nat) =>
    (List.range 15).map fun (j : Nat) => ((i : Int), (j : Int))

/-- The walk shared by Go `hasOpenFour` (fuel 4) and `hasOpenThree` (fuel 3),
whose loop bodies are identical: step up to `fuel` cells from `(r, c)` along
`(dr, dc)`; own stones are counted and the walk continues; an empty cell stops
it contributing 1 to `space`; a boundary or foreign stone stops it with no
contribution.  Returns (own-stone count, space contribution). -/
def openWalk (g : Grid) (p : Player) (dr dc : Int) : Nat → Int → Int → Nat × Nat
  | 0, _, _ => (0, 0)
  | fuel + 1, r, c =>
    let r2 := r + dr
    let c2 := c + dc
    if isValidPosition r2 c2 = false then (0, 0)
    else if g r2 c2 = p then
      let rest := openWalk g p dr dc fuel r2 c2
      (rest.1 + 1, rest.2)
    else if g r2 c2 = Player.empty then (0, 1)
    else (0, 0)

/-- Per-axis test of Go `hasOpenFour`: `count == 4 && space == 2`. -/
def openFourAxis (g : Grid) (row col : Int) (d : Int × Int) : Bool :=
  let player := g row col
  let f := openWalk g player d.1 d.2 4 row col
  let bk := openWalk g player (-d.1) (-d.2) 4 row col
  decide (1 + f.1 + bk.1 = 4) && decide (f.2 + bk.2 = 2)

/-- Go `(ai *AI) hasOpenFour(board, row, col) bool`. -/
def hasOpenFour (g : Grid) (row col : Int) : Bool :=
  directions.any (openFourAxis g row col)

/-- Per-axis test of Go `hasOpenThree`: `count == 3 && space == 2`. -/
def openThreeAxis (g : Grid) (row col : Int) (d : Int × Int) : Bool :=
  let player := g row col
  let f := openWalk g player d.1 d.2 3 row col
  let bk := openWalk g player (-d.1) (-d.2) 3 row col
  decide (1 + f.1 + bk.1 = 3) && decide (f.2 + bk.2 = 2)

/-- Go `(ai *AI) hasOpenThree(board, row, col) bool`. -/
def hasOpenThree (g : Grid) (row col : Int) : Bool :=
  directions.any (openThreeAxis g row col)

/-- The walk of Go `hasDoubleThree`: like the open-three walk but additionally
tallying a `blocked` flag when the walk ends at the boundary or at a foreign
stone.  Returns (own-stone count, space contribution, blocked contribution). -/
def doubleThreeWalk (g : Grid) (p : Player) (dr dc : Int) : Nat → Int → Int → Nat × Nat × Nat
  | 0, _, _ => (0, 0, 0)
  | fuel + 1, r, c =>
    let r2 := r + dr
    let c2 := c + dc
    if isValidPosition r2 c2 = false then (0, 0, 1)
    else if g r2 c2 = p then
      let rest := doubleThreeWalk g p dr dc fuel r2 c2
      (rest.1 + 1, rest.2.1, rest.2.2)
    else if g r2 c2 = Player.empty then (0, 1, 0)
    else (0, 0, 1)

/-- Per-axis test inside Go `hasDoubleThree`:
`count == 3 && space == 2 && blocked == 0`. -/
def doubleThreeAxis (g : Grid) (row col : Int) (d : Int × Int) : Bool :=
  let player := g row col
  let f := doubleThreeWalk g player d.1 d.2 3 row col
  let bk := doubleThreeWalk g player (-d.1) (-d.2) 3 row col
  decide (1 + f.1 + bk.1 = 3) && decide (f.2.1 + bk.2.1 = 2) && decide (f.2.2 + bk.2.2 = 0)

/-- Go `(ai *AI) hasDoubleThree(board, row, col) bool`: the number of axes whose
per-axis test holds (`threeCount`) is at least 2. -/
def hasDoubleThree (g : Grid) (row col : Int) : Bool :=
  decide (2 ≤ directions.countP (doubleThreeAxis g row col))

/-- The walk of Go `findThreatsMove`: up to 3 steps; contiguous opponent stones
are counted; a boundary or an own stone stops the walk adding 1 to `blocked`;
an empty cell stops it with no contribution.  Returns (count, blocked). -/
def threatWalk (g : Grid) (opponent : Player) (dr dc : Int) : Nat → Int → Int → Nat × Nat
  | 0, _, _ => (0, 0)
  | fuel + 1, r, c =>
    let r2 := r + dr
    let c2 := c + dc
    if isValidPosition r2 c2 = false then (0, 1)
    else if g r2 c2 = opponent then
      let rest := threatWalk g opponent dr dc fuel r2 c2
      (rest.1 + 1, rest.2)
    else if g r2 c2 ≠ Player.empty then (0, 1)
    else (0, 0)

/-- The per-cell test of Go `findThreatsMove`: some axis has `count >= 2` and
`blocked < 2`. -/
def threatAt (g : Grid) (opponent : Player) (i j : Int) : Bool :=
  directions.any fun d =>
    let f := threatWalk g opponent d.1 d.2 3 i j
    let bk := threatWalk g opponent (-d.1) (-d.2) 3 i j
    decide (2 ≤ f.1 + bk.1) && decide (f.2 + bk.2 < 2)

def findThreatsMoveLoop (g : Grid) (opponent : Player) : List (Int × Int) → Int × Int
  | [] => (-1, -1)
  | (i, j) :: rest =>
    if g i j ≠ Player.empty then findThreatsMoveLoop g opponent rest
    else if threatAt g opponent i j then (i, j)
    else findThreatsMoveLoop g opponent rest

/-- Go `(ai *AI) findThreatsMove(board) [2]int`: the first empty cell, in
row-major order, that blocks an opponent three-in-a-row threat.  Read-only. -/
def findThreatsMove (ai : AI) (b : Board) : Int × Int :=
  findThreatsMoveLoop b.grid (getOpponent ai) cells

/-- The running tallies of Go `evaluateDirection`. -/
structure DirAcc where
  myCount : Nat
  oppCount : Nat
  emptyCount : Nat
  maxMySeq : Nat
  maxOppSeq : Nat
  currentMySeq : Nat
  currentOppSeq : Nat

def dirAccInit : DirAcc := ⟨0, 0, 0, 0, 0, 0, 0⟩

/-- The window offsets of Go `evaluateDirection`: `for i := -4; i <= 4; i++`. -/
def offsets : List Int := [-4, -3, -2, -1, 0, 1, 2, 3, 4]

/-- The switch on the current cell inside the Go `evaluateDirection` loop. -/
def cellStep (ai : AI) (acc : DirAcc) (current : Player) : DirAcc :=
  if current = ai.player then
    let newSeq := acc.currentMySeq + 1
    { acc with myCount := acc.myCount + 1
               currentMySeq := newSeq
               currentOppSeq := 0
               maxMySeq := if acc.maxMySeq < newSeq then newSeq else acc.maxMySeq }
  else if current = Player.empty then
    { acc with emptyCount := acc.emptyCount + 1
               currentMySeq := 0
               currentOppSeq := 0 }
  else
    let newSeq := acc.currentOppSeq + 1
    { acc with oppCount := acc.oppCount + 1
               currentOppSeq := newSeq
               currentMySeq := 0
               maxOppSeq := if acc.maxOppSeq < newSeq then newSeq else acc.maxOppSeq }

/-- One iteration of the Go `evaluateDirection` loop (out-of-bounds window
cells are skipped by `continue`, leaving every tally unchanged). -/
def dirStep (ai : AI) (g : Grid) (row col dRow dCol : Int) (acc : DirAcc) (i : Int) : DirAcc :=
  let r := row + dRow * i
  let c := col + dCol * i
  if r < 0 ∨ boardSize ≤ r ∨ c < 0 ∨ boardSize ≤ c then acc
  else cellStep ai acc (g r c)

/-- Go `(ai *AI) evaluateDirection(board, row, col, dRow, dCol) int`: fold the
±4 window and apply the scoring table. -/
def evaluateDirection (ai : AI) (g : Grid) (row col dRow dCol : Int) : Int :=
  let acc := offsets.foldl (dirStep ai g row col dRow dCol) dirAccInit
  let s1 : Int :=
    if 4 ≤ acc.maxMySeq then 2000
    else if acc.maxMySeq = 3 ∧ 2 ≤ acc.emptyCount then 1000
    else if acc.maxMySeq = 2 ∧ 3 ≤ acc.emptyCount then 100
    else 0
  let s2 : Int :=
    if 3 ≤ acc.maxOppSeq then 1500
    else if acc.maxOppSeq = 2 ∧ 3 ≤ acc.emptyCount then 200
    else 0
  s1 + s2 + (acc.myCount : Int) * 10 + (acc.emptyCount : Int) * 2

/-- Loop of Go `findWinningMove`: over the given cells in order, speculatively
place `player` on each empty cell, ask `CheckWin`, revert, and return the first
winning cell.  The mutated-then-reverted board is threaded through. -/
def findWinningMoveLoop (player : Player) : Board → List (Int × Int) → (Int × Int) × Board
  | b, [] => ((-1, -1), b)
  | b, (i, j) :: rest =>
    if b.grid i j = Player.empty then
      let b1 : Board := { b with grid := setCell b.grid i j player }
      if checkWin b1.grid i j then ((i, j), { b1 with grid := setCell b1.grid i j Player.empty })
      else findWinningMoveLoop player { b1 with grid := setCell b1.grid i j Player.empty } rest
    else findWinningMoveLoop player b rest

/-- Go `(ai *AI) findWinningMove(board, player) [2]int` (with the final board). -/
def findWinningMove (b : Board) (player : Player) : (Int × Int) × Board :=
  findWinningMoveLoop player b cells

/-- Pure value of `findWinningMoveLoop` (the board is provably unchanged). -/
def findWinningMoveLoopP (g : Grid) (player : Player) : List (Int × Int) → Int × Int
  | [] => (-1, -1)
  | (i, j) :: rest =>
    if g i j = Player.empty then
      if checkWin (setCell g i j player) i j then (i, j)
      else findWinningMoveLoopP g player rest
    else findWinningMoveLoopP g player rest

def findWinningMoveP (g : Grid) (player : Player) : Int × Int :=
  findWinningMoveLoopP g player cells

/-- Loop of Go `findOpenFourMove`: speculative placement, `hasOpenFour`, revert. -/
def findOpenFourMoveLoop (player : Player) : Board → List (Int × Int) → (Int × Int) × Board
  | b, [] => ((-1, -1), b)
  | b, (i, j) :: rest =>
    if b.grid i j ≠ Player.empty then findOpenFourMoveLoop player b rest
    else
      let b1 : Board := { b with grid := setCell b.grid i j player }
      if hasOpenFour b1.grid i j then ((i, j), { b1 with grid := setCell b1.grid i j Player.empty })
      else findOpenFourMoveLoop player { b1 with grid := setCell b1.grid i j Player.empty } rest

def findOpenFourMove (b : Board) (player : Player) : (Int × Int) × Board :=
  findOpenFourMoveLoop player b cells

def findOpenFourMoveLoopP (g : Grid) (player : Player) : List (Int × Int) → Int × Int
  | [] => (-1, -1)
  | (i, j) :: rest =>
    if g i j ≠ Player.empty then findOpenFourMoveLoopP g player rest
    else if hasOpenFour (setCell g i j player) i j then (i, j)
    else findOpenFourMoveLoopP g player rest

def findOpenFourMoveP (g : Grid) (player : Player) : Int × Int :=
  findOpenFourMoveLoopP g player cells

/-- Loop of Go `findOpenThreeMove`: speculative placement, `hasOpenThree`, revert. -/
def findOpenThreeMoveLoop (player : Player) : Board → List (Int × Int) → (Int × Int) × Board
  | b, [] => ((-1, -1), b)
  | b, (i, j) :: rest =>
    if b.grid i j ≠ Player.empty then findOpenThreeMoveLoop player b rest
    else
      let b1 : Board := { b with grid := setCell b.grid i j player }
      if hasOpenThree b1.grid i j then
        ((i, j), { b1 with grid := setCell b1.grid i j Player.empty })
      else findOpenThreeMoveLoop player { b1 with grid := setCell b1.grid i j Player.empty } rest

def findOpenThreeMove (b : Board) (player : Player) : (Int × Int) × Board :=
  findOpenThreeMoveLoop player b cells

def findOpenThreeMoveLoopP (g : Grid) (player : Player) : List (Int × Int) → Int × Int
  | [] => (-1, -1)
  | (i, j) :: rest =>
    if g i j ≠ Player.empty then findOpenThreeMoveLoopP g player rest
    else if hasOpenThree (setCell g i j player) i j then (i, j)
    else findOpenThreeMoveLoopP g player rest

def findOpenThreeMoveP (g : Grid) (player : Player) : Int × Int :=
  findOpenThreeMoveLoopP g player cells

/-- Loop of Go `findAdvancedThreatMove`: speculative placement, `hasOpenFour`
then `hasDoubleThree`, revert. -/
def findAdvancedThreatMoveLoop (player : Player) :
    Board → List (Int × Int) → (Int × Int) × Board
  | b, [] => ((-1, -1), b)
  | b, (i, j) :: rest =>
    if b.grid i j ≠ Player.empty then findAdvancedThreatMoveLoop player b rest
    else
      let b1 : Board := { b with grid := setCell b.grid i j player }
      if hasOpenFour b1.grid i j then
        ((i, j), { b1 with grid := setCell b1.grid i j Player.empty })
      else if hasDoubleThree b1.grid i j then
        ((i, j), { b1 with grid := setCell b1.grid i j Player.empty })
      else findAdvancedThreatMoveLoop player { b1 with grid := setCell b1.grid i j Player.empty } rest

def findAdvancedThreatMove (b : Board) (player : Player) : (Int × Int) × Board :=
  findAdvancedThreatMoveLoop player b cells

def findAdvancedThreatMoveLoopP (g : Grid) (player : Player) : List (Int × Int) → Int × Int
  | [] => (-1, -1)
  | (i, j) :: rest =>
    if g i j ≠ Player.empty then findAdvancedThreatMoveLoopP g player rest
    else if hasOpenFour (setCell g i j player) i j then (i, j)
    else if hasDoubleThree (setCell g i j player) i j then (i, j)
    else findAdvancedThreatMoveLoopP g player rest

def findAdvancedThreatMoveP (g : Grid) (player : Player) : Int × Int :=
  findAdvancedThreatMoveLoopP g player cells

/-- Go `(ai *AI) evaluatePosition(board, row, col) int`, with the board
threaded through its two speculative placements. -/
def evaluatePosition (ai : AI) (b : Board) (row col : Int) : Int × Board :=
  let b1 : Board := { b with grid := setCell b.grid row col ai.player }
  if checkWin b1.grid row col then
    (10000, { b1 with grid := setCell b1.grid row col Player.empty })
  else
    let b2 : Board := { b1 with grid := setCell b1.grid row col Player.empty }
    let b3 : Board := { b2 with grid := setCell b2.grid row col (getOpponent ai) }
    if checkWin b3.grid row col then
      (9000, { b3 with grid := setCell b3.grid row col Player.empty })
    else
      let b4 : Board := { b3 with grid := setCell b3.grid row col Player.empty }
      let dirScore :=
        directions.foldl (fun s d => s + evaluateDirection ai b4.grid row col d.1 d.2) 0
      let centerDist : Int :=
        ((row - boardSize / 2).natAbs : Int) + ((col - boardSize / 2).natAbs : Int)
      let score1 := dirScore - centerDist * 10
      let score2 :=
        if 0 < b4.moveHistory.length then
          let lastMove := b4.moveHistory.getD (b4.moveHistory.length - 1) (0, 0)
          score1 - (((row - lastMove.1).natAbs : Int) + ((col - lastMove.2).natAbs : Int)) * 5
        else score1
      (score2, b4)

/-- Pure value of `evaluatePosition`. -/
def evaluatePositionP (ai : AI) (b : Board) (row col : Int) : Int :=
  if checkWin (setCell b.grid row col ai.player) row col then 10000
  else if checkWin (setCell b.grid row col (getOpponent ai)) row col then 9000
  else
    let dirScore :=
      directions.foldl (fun s d => s + evaluateDirection ai b.grid row col d.1 d.2) 0
    let centerDist : Int :=
      ((row - boardSize / 2).natAbs : Int) + ((col - boardSize / 2).natAbs : Int)
    let score1 := dirScore - centerDist * 10
    if 0 < b.moveHistory.length then
      let lastMove := b.moveHistory.getD (b.moveHistory.length - 1) (0, 0)
      score1 - (((row - lastMove.1).natAbs : Int) + ((col - lastMove.2).natAbs : Int)) * 5
    else score1

/-- Go `(ai *AI) evaluatePositionMedium(board, row, col) int`, board threaded. -/
def evaluatePositionMedium (ai : AI) (b : Board) (row col : Int) : Int × Board :=
  let ev := evaluatePosition ai b row col
  let b1 : Board := { ev.2 with grid := setCell ev.2.grid row col ai.player }
  let s1 := if hasOpenFour b1.grid row col then ev.1 + 800 else ev.1
  let s2 := if hasOpenThree b1.grid row col then s1 + 400 else s1
  let b2 : Board := { b1 with grid := setCell b1.grid row col Player.empty }
  let b3 : Board := { b2 with grid := setCell b2.grid row col (getOpponent ai) }
  let s3 := if hasOpenFour b3.grid row col then s2 + 700 else s2
  let s4 := if hasOpenThree b3.grid row col then s3 + 300 else s3
  (s4, { b3 with grid := setCell b3.grid row col Player.empty })

/-- Pure value of `evaluatePositionMedium`. -/
def evaluatePositionMediumP (ai : AI) (b : Board) (row col : Int) : Int :=
  let s0 := evaluatePositionP ai b row col
  let gSelf := setCell b.grid row col ai.player
  let s1 := if hasOpenFour gSelf row col then s0 + 800 else s0
  let s2 := if hasOpenThree gSelf row col then s1 + 400 else s1
  let gOpp := setCell b.grid row col (getOpponent ai)
  let s3 := if hasOpenFour gOpp row col then s2 + 700 else s2
  if hasOpenThree gOpp row col then s3 + 300 else s3

/-- The 5x5 neighbourhood offsets of Go `evaluatePositionHard`:
`for i := -2; i <= 2; i++ { for j := -2; j <= 2; j++ }`. -/
def hardNbOffsets : List (Int × Int) :=
  ([-2, -1, 0, 1, 2] : List Int).flatMap fun i =>
    ([-2, -1, 0, 1, 2] : List Int).map fun j => (i, j)

/-- The `nearbyStones` tally of Go `evaluatePositionHard`. -/
def hardNearbyStones (g : Grid) (row col : Int) : Nat :=
  hardNbOffsets.foldl
    (fun n q =>
      if isValidPosition (row + q.1) (col + q.2) && decide (g (row + q.1) (col + q.2) ≠ Player.empty) then
        if q.1.natAbs + q.2.natAbs ≤ 1 then n + 3 else n + 1
      else n)
    0

/-- Go `(ai *AI) evaluatePositionHard(board, row, col) int`, board threaded. -/
def evaluatePositionHard (ai : AI) (b : Board) (row col : Int) : Int × Board :=
  let ev := evaluatePosition ai b row col
  let b1 : Board := { ev.2 with grid := setCell ev.2.grid row col ai.player }
  let s1 := if hasOpenFour b1.grid row col then ev.1 + 1200 else ev.1
  let s2 := if hasDoubleThree b1.grid row col then s1 + 1000 else s1
  let s3 := if hasOpenThree b1.grid row col then s2 + 600 else s2
  let b2 : Board := { b1 with grid := setCell b1.grid row col Player.empty }
  let b3 : Board := { b2 with grid := setCell b2.grid row col (getOpponent ai) }
  let s4 := if hasOpenFour b3.grid row col then s3 + 1000 else s3
  let s5 := if hasDoubleThree b3.grid row col then s4 + 800 else s4
  let s6 := if hasOpenThree b3.grid row col then s5 + 500 else s5
  let b4 : Board := { b3 with grid := setCell b3.grid row col Player.empty }
  let centerDist : Int :=
    ((row - boardSize / 2).natAbs : Int) + ((col - boardSize / 2).natAbs : Int)
  let s7 := s6 - centerDist * 15
  let s8 := s7 + (hardNearbyStones b4.grid row col : Int) * 10
  let s9 :=
    if row ≤ 1 ∨ boardSize - 2 ≤ row ∨ col ≤ 1 ∨ boardSize - 2 ≤ col then Int.tdiv s8 2
    else s8
  (s9, b4)

/-- Pure value of `evaluatePositionHard`. -/
def evaluatePositionHardP (ai : AI) (b : Board) (row col : Int) : Int :=
  let s0 := evaluatePositionP ai b row col
  let gSelf := setCell b.grid row col ai.player
  let s1 := if hasOpenFour gSelf row col then s0 + 1200 else s0
  let s2 := if hasDoubleThree gSelf row col then s1 + 1000 else s1
  let s3 := if hasOpenThree gSelf row col then s2 + 600 else s2
  let gOpp := setCell b.grid row col (getOpponent ai)
  let s4 := if hasOpenFour gOpp row col then s3 + 1000 else s3
  let s5 := if hasDoubleThree gOpp row col then s4 + 800 else s4
  let s6 := if hasOpenThree gOpp row col then s5 + 500 else s5
  let centerDist : Int :=
    ((row - boardSize / 2).natAbs : Int) + ((col - boardSize / 2).natAbs : Int)
  let s7 := s6 - centerDist * 15
  let s8 := s7 + (hardNearbyStones b.grid row col : Int) * 10
  if row ≤ 1 ∨ boardSize - 2 ≤ row ∨ col ≤ 1 ∨ boardSize - 2 ≤ col then Int.tdiv s8 2
  else s8

/-- The bounding-box tallies of Go `makeEasyMove` step 4. -/
structure BoundsAcc where
  minRow : Int
  maxRow : Int
  minCol : Int
  maxCol : Int
  hasStones : Bool

/-- One iteration of the bounding-box scan. -/
def boundsStep (g : Grid) (acc : BoundsAcc) (p : Int × Int) : BoundsAcc :=
  if g p.1 p.2 ≠ Player.empty then
    { hasStones := true
      minRow := if p.1 < acc.minRow then p.1 else acc.minRow
      maxRow := if acc.maxRow < p.1 then p.1 else acc.maxRow
      minCol := if p.2 < acc.minCol then p.2 else acc.minCol
      maxCol := if acc.maxCol < p.2 then p.2 else acc.maxCol }
  else acc

/-- Go `makeEasyMove` step 4: `minRow, maxRow := BoardSize-1, 0` etc., then a
row-major scan over all cells. -/
def stoneBounds (g : Grid) : BoundsAcc :=
  cells.foldl (boundsStep g) ⟨boardSize - 1, 0, boardSize - 1, 0, false⟩

/-- The inclusive integer loop `for i := lo; i <= hi; i++`. -/
def intRange (lo hi : Int) : List Int :=
  (List.range (hi + 1 - lo).toNat).map fun (k : Nat) => lo + (k : Int)

/-- The sub-grid traversal of Go `makeEasyMove` step 5 (row-major, inclusive). -/
def subCells (minR maxR minC maxC : Int) : List (Int × Int) :=
  (intRange minR maxR).flatMap fun i => (intRange minC maxC).map fun j => (i, j)

/-- The 3x3 neighbourhood offsets of the nearby-stone check in `makeEasyMove`. -/
def nbOffsets : List (Int × Int) :=
  ([-1, 0, 1] : List Int).flatMap fun di => ([-1, 0, 1] : List Int).map fun dj => (di, dj)

/-- The count of in-bounds occupied neighbours (the Go loop adds 30 per such
neighbour and records `hasNearbyStones`, which is true iff this count is
positive). -/
def countNearbyStones (g : Grid) (i j : Int) : Nat :=
  nbOffsets.countP fun q =>
    isValidPosition (i + q.1) (j + q.2) && decide (g (i + q.1) (j + q.2) ≠ Player.empty)

/-- The pure weight a candidate `(i, j)` receives in Go `makeEasyMove` step 5. -/
def easyWeightP (ai : AI) (b : Board) (lastRow lastCol i j : Int) : Int :=
  let w1 := 100 + evaluatePositionP ai b i j
  let dist : Int := ((i - lastRow).natAbs : Int) + ((j - lastCol).natAbs : Int)
  let w2 := if dist ≤ 2 then w1 + 100 else if dist ≤ 4 then w1 + 50 else w1
  let centerDist : Int :=
    ((i - boardSize / 2).natAbs : Int) + ((j - boardSize / 2).natAbs : Int)
  let w3 := if centerDist ≤ 2 then w2 + 150 else if centerDist ≤ 4 then w2 + 80 else w2
  let nb := countNearbyStones b.grid i j
  let w4 := w3 + 30 * (nb : Int)
  let w5 := if nb = 0 then Int.tdiv w4 2 else w4
  if i ≤ 1 ∨ boardSize - 2 ≤ i ∨ j ≤ 1 ∨ boardSize - 2 ≤ j then Int.tdiv w5 3 else w5

/-- The candidate-collection loop of Go `makeEasyMove` step 5, threading the
board through the `evaluatePosition` calls and appending `(row, col, weight)`
entries in traversal order. -/
def easyMovesLoop (ai : AI) (lastRow lastCol : Int) :
    List (Int × Int × Int) × Board → List (Int × Int) → List (Int × Int × Int) × Board
  | acc, [] => acc
  | (moves, b), (i, j) :: rest =>
    if b.grid i j = Player.empty then
      let ev := evaluatePosition ai b i j
      let w1 := 100 + ev.1
      let dist : Int := ((i - lastRow).natAbs : Int) + ((j - lastCol).natAbs : Int)
      let w2 := if dist ≤ 2 then w1 + 100 else if dist ≤ 4 then w1 + 50 else w1
      let centerDist : Int :=
        ((i - boardSize / 2).natAbs : Int) + ((j - boardSize / 2).natAbs : Int)
      let w3 := if centerDist ≤ 2 then w2 + 150 else if centerDist ≤ 4 then w2 + 80 else w2
      let nb := countNearbyStones ev.2.grid i j
      let w4 := w3 + 30 * (nb : Int)
      let w5 := if nb = 0 then Int.tdiv w4 2 else w4
      let w6 :=
        if i ≤ 1 ∨ boardSize - 2 ≤ i ∨ j ≤ 1 ∨ boardSize - 2 ≤ j then Int.tdiv w5 3 else w5
      easyMovesLoop ai lastRow lastCol (moves ++ [(i, j, w6)], ev.2) rest
    else easyMovesLoop ai lastRow lastCol (moves, b) rest

/-- Pure value of `easyMovesLoop` started from an empty list. -/
def easyMovesLoopP (ai : AI) (b : Board) (lastRow lastCol : Int) :
    List (Int × Int) → List (Int × Int × Int)
  | [] => []
  | (i, j) :: rest =>
    if b.grid i j = Player.empty then
      (i, j, easyWeightP ai b lastRow lastCol i j) :: easyMovesLoopP ai b lastRow lastCol rest
    else easyMovesLoopP ai b lastRow lastCol rest

/-- The ranges of Go `makeEasyMove` step 5 after clamping:
`minRow = max(2, minRow-2)` … `maxCol = min(BoardSize-3, maxCol+2)`. -/
def easyRanges (g : Grid) : Int × Int × Int × Int :=
  let bounds := stoneBounds g
  (max 2 (bounds.minRow - 2), min (boardSize - 3) (bounds.maxRow + 2),
    max 2 (bounds.minCol - 2), min (boardSize - 3) (bounds.maxCol + 2))

/-- The last-move coordinates used by Go `makeEasyMove`
(`BoardSize/2, BoardSize/2` when the history is empty). -/
def lastMoveOf (b : Board) : Int × Int :=
  if 0 < b.moveHistory.length then b.moveHistory.getD (b.moveHistory.length - 1) (0, 0)
  else (boardSize / 2, boardSize / 2)

/-- The full candidate list of Go `makeEasyMove` step 5, as a pure value. -/
def easyCandidates (ai : AI) (b : Board) : List (Int × Int × Int) :=
  let r := easyRanges b.grid
  easyMovesLoopP ai b (lastMoveOf b).1 (lastMoveOf b).2 (subCells r.1 r.2.1 r.2.2.1 r.2.2.2)

/-- The cumulative-sum selection loop of Go `makeEasyMove`:
`currentWeight += move.weight; if currentWeight > randomWeight { return }`. -/
def easyScan (randomWeight : Int) : Int → List (Int × Int × Int) → Option (Int × Int)
  | _, [] => none
  | currentWeight, m :: rest =>
    if randomWeight < currentWeight + m.2.2 then some (m.1, m.2.1)
    else easyScan randomWeight (currentWeight + m.2.2) rest

/-- The highest-weight fallback of Go `makeEasyMove` (`bestMove := moves[0]`,
then keep any strictly heavier move). -/
def bestWeightMove (moves : List (Int × Int × Int)) : Int × Int × Int :=
  moves.foldl (fun best m => if best.2.2 < m.2.2 then m else best) (moves.getD 0 (0, 0, 0))

/-- The final fallback scan of Go `makeEasyMove`: first empty cell in row-major
order. -/
def firstEmptyCell (g : Grid) : List (Int × Int) → Option (Int × Int)
  | [] => none
  | (i, j) :: rest => if g i j = Player.empty then some (i, j) else firstEmptyCell g rest

/-- Steps 5b-6 of Go `makeEasyMove`: given the collected candidate list, draw
`rand.Intn(totalWeight)` (modelled by `oracle`; `none` models the panic raised
when `totalWeight <= 0`), run the cumulative-sum scan with the highest-weight
fallback; with no candidates, fall back to the first empty cell anywhere,
`(-1, -1)` when the board is full. -/
def easySample (moves : List (Int × Int × Int)) (g : Grid) (oracle : Nat) :
    Option (Int × Int) :=
  if 0 < moves.length then
    let totalWeight := moves.foldl (fun s m => s + m.2.2) 0
    if totalWeight ≤ 0 then none
    else
      let randomWeight : Int := ((oracle % totalWeight.toNat : Nat) : Int)
      match easyScan randomWeight 0 moves with
      | some mv => some mv
      | none => some ((bestWeightMove moves).1, (bestWeightMove moves).2.1)
  else
    match firstEmptyCell g cells with
    | some mv => some mv
    | none => some (-1, -1)

/-- Go `(ai *AI) makeEasyMove(board) (int, int)`. -/
def makeEasyMove (ai : AI) (b : Board) (oracle : Nat) : Option (Int × Int) × Board :=
  let s1 := findWinningMove b ai.player
  if 0 ≤ s1.1.1 then (some s1.1, s1.2)
  else
    let s2 := findWinningMove s1.2 (getOpponent ai)
    if 0 ≤ s2.1.1 then (some s2.1, s2.2)
    else
      let s3 := findThreatsMove ai s2.2
      if 0 ≤ s3.1 then (some s3, s2.2)
      else
        let bounds := stoneBounds s2.2.grid
        if bounds.hasStones = false then (some (boardSize / 2, boardSize / 2), s2.2)
        else
          let last := lastMoveOf s2.2
          let ms := easyMovesLoop ai last.1 last.2 ([], s2.2)
            (subCells (max 2 (bounds.minRow - 2)) (min (boardSize - 3) (bounds.maxRow + 2))
              (max 2 (bounds.minCol - 2)) (min (boardSize - 3) (bounds.maxCol + 2)))
          (easySample ms.1 ms.2.grid oracle, ms.2)

/-- Pure value of `makeEasyMove`. -/
def makeEasyMoveP (ai : AI) (b : Board) (oracle : Nat) : Option (Int × Int) :=
  let m1 := findWinningMoveP b.grid ai.player
  if 0 ≤ m1.1 then some m1
  else
    let m2 := findWinningMoveP b.grid (getOpponent ai)
    if 0 ≤ m2.1 then some m2
    else
      let m3 := findThreatsMove ai b
      if 0 ≤ m3.1 then some m3
      else
        if (stoneBounds b.grid).hasStones = false then some (boardSize / 2, boardSize / 2)
        else easySample (easyCandidates ai b) b.grid oracle

/-- One iteration of the arg-max loop in Go `makeMediumMove` step 7
(`bestScore := math.MinInt32`; strict improvement only). -/
def mediumBestStep (ai : AI) (acc : Int × (Int × Int) × Board) (p : Int × Int) :
    Int × (Int × Int) × Board :=
  if acc.2.2.grid p.1 p.2 = Player.empty then
    let ev := evaluatePositionMedium ai acc.2.2 p.1 p.2
    if acc.1 < ev.1 then (ev.1, p, ev.2) else (acc.1, acc.2.1, ev.2)
  else acc

/-- Pure version of the medium arg-max loop. -/
def mediumBestStepP (ai : AI) (b : Board) (acc : Int × (Int × Int)) (p : Int × Int) :
    Int × (Int × Int) :=
  if b.grid p.1 p.2 = Player.empty then
    let s := evaluatePositionMediumP ai b p.1 p.2
    if acc.1 < s then (s, p) else acc
  else acc

/-- Go `(ai *AI) makeMediumMove(board) (int, int)`. -/
def makeMediumMove (ai : AI) (b : Board) (oracle : Nat) : Option (Int × Int) × Board :=
  let s1 := findWinningMove b ai.player
  if 0 ≤ s1.1.1 then (some s1.1, s1.2)
  else
    let s2 := findWinningMove s1.2 (getOpponent ai)
    if 0 ≤ s2.1.1 then (some s2.1, s2.2)
    else
      let s3 := findOpenFourMove s2.2 ai.player
      if 0 ≤ s3.1.1 then (some s3.1, s3.2)
      else
        let s4 := findOpenFourMove s3.2 (getOpponent ai)
        if 0 ≤ s4.1.1 then (some s4.1, s4.2)
        else
          let s5 := findOpenThreeMove s4.2 ai.player
          if 0 ≤ s5.1.1 then (some s5.1, s5.2)
          else
            let s6 := findThreatsMove ai s5.2
            if 0 ≤ s6.1 then (some s6, s5.2)
            else
              let s7 := cells.foldl (mediumBestStep ai) (-2147483648, (-1, -1), s5.2)
              if 0 ≤ s7.2.1.1 then (some s7.2.1, s7.2.2)
              else makeEasyMove ai s7.2.2 oracle

/-- Pure value of `makeMediumMove`. -/
def makeMediumMoveP (ai : AI) (b : Board) (oracle : Nat) : Option (Int × Int) :=
  let m1 := findWinningMoveP b.grid ai.player
  if 0 ≤ m1.1 then some m1
  else
    let m2 := findWinningMoveP b.grid (getOpponent ai)
    if 0 ≤ m2.1 then some m2
    else
      let m3 := findOpenFourMoveP b.grid ai.player
      if 0 ≤ m3.1 then some m3
      else
        let m4 := findOpenFourMoveP b.grid (getOpponent ai)
        if 0 ≤ m4.1 then some m4
        else
          let m5 := findOpenThreeMoveP b.grid ai.player
          if 0 ≤ m5.1 then some m5
          else
            let m6 := findThreatsMove ai b
            if 0 ≤ m6.1 then some m6
            else
              let m7 := cells.foldl (mediumBestStepP ai b) (-2147483648, (-1, -1))
              if 0 ≤ m7.2.1 then some m7.2
              else makeEasyMoveP ai b oracle

/-- One iteration of the arg-max loop in Go `makeHardMove` step 7. -/
def hardBestStep (ai : AI) (acc : Int × (Int × Int) × Board) (p : Int × Int) :
    Int × (Int × Int) × Board :=
  if acc.2.2.grid p.1 p.2 = Player.empty then
    let ev := evaluatePositionHard ai acc.2.2 p.1 p.2
    if acc.1 < ev.1 then (ev.1, p, ev.2) else (acc.1, acc.2.1, ev.2)
  else acc

/-- Pure version of the hard arg-max loop. -/
def hardBestStepP (ai : AI) (b : Board) (acc : Int × (Int × Int)) (p : Int × Int) :
    Int × (Int × Int) :=
  if b.grid p.1 p.2 = Player.empty then
    let s := evaluatePositionHardP ai b p.1 p.2
    if acc.1 < s then (s, p) else acc
  else acc

/-- Go `(ai *AI) makeHardMove(board) (int, int)`. -/
def makeHardMove (ai : AI) (b : Board) (oracle : Nat) : Option (Int × Int) × Board :=
  let s1 := findWinningMove b ai.player
  if 0 ≤ s1.1.1 then (some s1.1, s1.2)
  else
    let s2 := findWinningMove s1.2 (getOpponent ai)
    if 0 ≤ s2.1.1 then (some s2.1, s2.2)
    else
      let s3 := findAdvancedThreatMove s2.2 ai.player
      if 0 ≤ s3.1.1 then (some s3.1, s3.2)
      else
        let s4 := findAdvancedThreatMove s3.2 (getOpponent ai)
        if 0 ≤ s4.1.1 then (some s4.1, s4.2)
        else
          let s5 := findOpenThreeMove s4.2 ai.player
          if 0 ≤ s5.1.1 then (some s5.1, s5.2)
          else
            let s6 := findOpenThreeMove s5.2 (getOpponent ai)
            if 0 ≤ s6.1.1 then (some s6.1, s6.2)
            else
              let s7 := cells.foldl (hardBestStep ai) (-2147483648, (-1, -1), s6.2)
              if 0 ≤ s7.2.1.1 then (some s7.2.1, s7.2.2)
              else makeMediumMove ai s7.2.2 oracle

/-- Pure value of `makeHardMove`. -/
def makeHardMoveP (ai : AI) (b : Board) (oracle : Nat) : Option (Int × Int) :=
  let m1 := findWinningMoveP b.grid ai.player
  if 0 ≤ m1.1 then some m1
  else
    let m2 := findWinningMoveP b.grid (getOpponent ai)
    if 0 ≤ m2.1 then some m2
    else
      let m3 := findAdvancedThreatMoveP b.grid ai.player
      if 0 ≤ m3.1 then some m3
      else
        let m4 := findAdvancedThreatMoveP b.grid (getOpponent ai)
        if 0 ≤ m4.1 then some m4
        else
          let m5 := findOpenThreeMoveP b.grid ai.player
          if 0 ≤ m5.1 then some m5
          else
            let m6 := findOpenThreeMoveP b.grid (getOpponent ai)
            if 0 ≤ m6.1 then some m6
            else
              let m7 := cells.foldl (hardBestStepP ai b) (-2147483648, (-1, -1))
              if 0 ≤ m7.2.1 then some m7.2
              else makeMediumMoveP ai b oracle

/-- Go `(ai *AI) MakeMove(board) (int, int)` (the `default` arm of the Go
switch is unreachable for the closed `Difficulty` enum). -/
def makeMove (ai : AI) (b : Board) (oracle : Nat) : Option (Int × Int) × Board :=
  match ai.difficulty with
  | Difficulty.easy => makeEasyMove ai b oracle
  | Difficulty.medium => makeMediumMove ai b oracle
  | Difficulty.hard => makeHardMove ai b oracle

/-- Pure value of `makeMove`. -/
def makeMoveP (ai : AI) (b : Board) (oracle : Nat) : Option (Int × Int) :=
  match ai.difficulty with
  | Difficulty.easy => makeEasyMoveP ai b oracle
  | Difficulty.medium => makeMediumMoveP ai b oracle
  | Difficulty.hard => makeHardMoveP ai b oracle

theorem setCell_restore_funext (g : Grid) (row col : Int) (p : Player)
    (h : g row col = Player.empty) :
    setCell (setCell g row col p) row col Player.empty = g :=
  funext fun r => funext fun c => setCell_restore g row col p h r c

theorem findWinningMoveLoop_eq (player : Player) (b : Board) (l : List (Int × Int)) :
    findWinningMoveLoop player b l = (findWinningMoveLoopP b.grid player l, b) := by
  induction l generalizing b with
  | nil => rfl
  | cons p rest ih =>
    obtain ⟨i, j⟩ := p
    rw [findWinningMoveLoop, findWinningMoveLoopP]
    by_cases h : b.grid i j = Player.empty
    · rw [if_pos h, if_pos h]
      dsimp only
      rw [setCell_restore_funext b.grid i j player h]
      by_cases hw : checkWin (setCell b.grid i j player) i j = true
      · rw [if_pos hw, if_pos hw]
      · rw [if_neg hw, if_neg hw, ih]
    · rw [if_neg h, if_neg h, ih]

theorem findWinningMove_eq (b : Board) (player : Player) :
    findWinningMove b player = (findWinningMoveP b.grid player, b) :=
  findWinningMoveLoop_eq player b cells

theorem findOpenFourMoveLoop_eq (player : Player) (b : Board) (l : List (Int × Int)) :
    findOpenFourMoveLoop player b l = (findOpenFourMoveLoopP b.grid player l, b) := by
  induction l generalizing b with
  | nil => rfl
  | cons p rest ih =>
    obtain ⟨i, j⟩ := p
    rw [findOpenFourMoveLoop, findOpenFourMoveLoopP]
    by_cases h : b.grid i j = Player.empty
    · have hg : ¬(b.grid i j ≠ Player.empty) := by simp [h]
      rw [if_neg hg, if_neg hg]
      dsimp only
      rw [setCell_restore_funext b.grid i j player h]
      by_cases hw : hasOpenFour (setCell b.grid i j player) i j = true
      · rw [if_pos hw, if_pos hw]
      · rw [if_neg hw, if_neg hw, ih]
    · rw [if_pos h, if_pos h, ih]

theorem findOpenFourMove_eq (b : Board) (player : Player) :
    findOpenFourMove b player = (findOpenFourMoveP b.grid player, b) :=
  findOpenFourMoveLoop_eq player b cells

theorem findOpenThreeMoveLoop_eq (player : Player) (b : Board) (l : List (Int × Int)) :
    findOpenThreeMoveLoop player b l = (findOpenThreeMoveLoopP b.grid player l, b) := by
  induction l generalizing b with
  | nil => rfl
  | cons p rest ih =>
    obtain ⟨i, j⟩ := p
    rw [findOpenThreeMoveLoop, findOpenThreeMoveLoopP]
    by_cases h : b.grid i j = Player.empty
    · have hg : ¬(b.grid i j ≠ Player.empty) := by simp [h]
      rw [if_neg hg, if_neg hg]
      dsimp only
      rw [setCell_restore_funext b.grid i j player h]
      by_cases hw : hasOpenThree (setCell b.grid i j player) i j = true
      · rw [if_pos hw, if_pos hw]
      · rw [if_neg hw, if_neg hw, ih]
    · rw [if_pos h, if_pos h, ih]

theorem findOpenThreeMove_eq (b : Board) (player : Player) :
    findOpenThreeMove b player = (findOpenThreeMoveP b.grid player, b) :=
  findOpenThreeMoveLoop_eq player b cells

theorem findAdvancedThreatMoveLoop_eq (player : Player) (b : Board) (l : List (Int × Int)) :
    findAdvancedThreatMoveLoop player b l = (findAdvancedThreatMoveLoopP b.grid player l, b) := by
  induction l generalizing b with
  | nil => rfl
  | cons p rest ih =>
    obtain ⟨i, j⟩ := p
    rw [findAdvancedThreatMoveLoop, findAdvancedThreatMoveLoopP]
    by_cases h : b.grid i j = Player.empty
    · have hg : ¬(b.grid i j ≠ Player.empty) := by simp [h]
      rw [if_neg hg, if_neg hg]
      dsimp only
      rw [setCell_restore_funext b.grid i j player h]
      by_cases hw : hasOpenFour (setCell b.grid i j player) i j = true
      · rw [if_pos hw, if_pos hw]
      · rw [if_neg hw, if_neg hw]
        by_cases hd : hasDoubleThree (setCell b.grid i j player) i j = true
        · rw [if_pos hd, if_pos hd]
        · rw [if_neg hd, if_neg hd, ih]
    · rw [if_pos h, if_pos h, ih]

theorem findAdvancedThreatMove_eq (b : Board) (player : Player) :
    findAdvancedThreatMove b player = (findAdvancedThreatMoveP b.grid player, b) :=
  findAdvancedThreatMoveLoop_eq player b cells

theorem evaluatePosition_eq (ai : AI) (b : Board) (row col : Int)
    (h : b.grid row col = Player.empty) :
    evaluatePosition ai b row col = (evaluatePositionP ai b row col, b) := by
  rw [evaluatePosition, evaluatePositionP]
  dsimp only
  rw [setCell_restore_funext b.grid row col ai.player h]
  by_cases hw : checkWin (setCell b.grid row col ai.player) row col = true
  · rw [if_pos hw, if_pos hw]
  · rw [if_neg hw, if_neg hw]
    rw [setCell_restore_funext b.grid row col (getOpponent ai) h]
    by_cases hw2 : checkWin (setCell b.grid row col (getOpponent ai)) row col = true
    · rw [if_pos hw2, if_pos hw2]
    · rw [if_neg hw2, if_neg hw2]

theorem evaluatePositionMedium_eq (ai : AI) (b : Board) (row col : Int)
    (h : b.grid row col = Player.empty) :
    evaluatePositionMedium ai b row col = (evaluatePositionMediumP ai b row col, b) := by
  rw [evaluatePositionMedium, evaluatePositionMediumP, evaluatePosition_eq ai b row col h]
  dsimp only
  rw [setCell_restore_funext b.grid row col ai.player h,
    setCell_restore_funext b.grid row col (getOpponent ai) h]

theorem evaluatePositionHard_eq (ai : AI) (b : Board) (row col : Int)
    (h : b.grid row col = Player.empty) :
    evaluatePositionHard ai b row col = (evaluatePositionHardP ai b row col, b) := by
  rw [evaluatePositionHard, evaluatePositionHardP, evaluatePosition_eq ai b row col h]
  dsimp only
  rw [setCell_restore_funext b.grid row col ai.player h,
    setCell_restore_funext b.grid row col (getOpponent ai) h]

theorem easyMovesLoop_eq (ai : AI) (lastRow lastCol : Int) (b : Board)
    (ms : List (Int × Int × Int)) (l : List (Int × Int)) :
    easyMovesLoop ai lastRow lastCol (ms, b) l =
      (ms ++ easyMovesLoopP ai b lastRow lastCol l, b) := by
  induction l generalizing ms with
  | nil => simp [easyMovesLoop, easyMovesLoopP]
  | cons p rest ih =>
    obtain ⟨i, j⟩ := p
    rw [easyMovesLoop, easyMovesLoopP]
    by_cases h : b.grid i j = Player.empty
    · rw [if_pos h, if_pos h]
      dsimp only
      rw [evaluatePosition_eq ai b i j h]
      dsimp only
      rw [ih]
      simp [easyWeightP]
    · rw [if_neg h, if_neg h, ih]

theorem mediumBestFold_eq (ai : AI) (b : Board) (l : List (Int × Int))
    (s : Int) (mv : Int × Int) :
    l.foldl (mediumBestStep ai) (s, mv, b) =
      ((l.foldl (mediumBestStepP ai b) (s, mv)).1,
        (l.foldl (mediumBestStepP ai b) (s, mv)).2, b) := by
  induction l generalizing s mv with
  | nil => rfl
  | cons p rest ih =>
    rw [List.foldl_cons, List.foldl_cons, mediumBestStep, mediumBestStepP]
    by_cases h : b.grid p.1 p.2 = Player.empty
    · rw [if_pos h, if_pos h]
      dsimp only
      rw [evaluatePositionMedium_eq ai b p.1 p.2 h]
      dsimp only
      by_cases hlt : s < evaluatePositionMediumP ai b p.1 p.2
      · rw [if_pos hlt, if_pos hlt, ih]
      · rw [if_neg hlt, if_neg hlt, ih]
    · rw [if_neg h, if_neg h, ih]

theorem hardBestFold_eq (ai : AI) (b : Board) (l : List (Int × Int))
    (s : Int) (mv : Int × Int) :
    l.foldl (hardBestStep ai) (s, mv, b) =
      ((l.foldl (hardBestStepP ai b) (s, mv)).1,
        (l.foldl (hardBestStepP ai b) (s, mv)).2, b) := by
  induction l generalizing s mv with
  | nil => rfl
  | cons p rest ih =>
    rw [List.foldl_cons, List.foldl_cons, hardBestStep, hardBestStepP]
    by_cases h : b.grid p.1 p.2 = Player.empty
    · rw [if_pos h, if_pos h]
      dsimp only
      rw [evaluatePositionHard_eq ai b p.1 p.2 h]
      dsimp only
      by_cases hlt : s < evaluatePositionHardP ai b p.1 p.2
      · rw [if_pos hlt, if_pos hlt, ih]
      · rw [if_neg hlt, if_neg hlt, ih]
    · rw [if_neg h, if_neg h, ih]

theorem makeEasyMove_eq (ai : AI) (b : Board) (oracle : Nat) :
    makeEasyMove ai b oracle = (makeEasyMoveP ai b oracle, b) := by
  rw [makeEasyMove, makeEasyMoveP]
  rw [findWinningMove_eq]
  dsimp only
  by_cases h1 : (0 : Int) ≤ (findWinningMoveP b.grid ai.player).1
  · rw [if_pos h1, if_pos h1]
  · rw [if_neg h1, if_neg h1]
    rw [findWinningMove_eq]
    dsimp only
    by_cases h2 : (0 : Int) ≤ (findWinningMoveP b.grid (getOpponent ai)).1
    · rw [if_pos h2, if_pos h2]
    · rw [if_neg h2, if_neg h2]
      by_cases h3 : (0 : Int) ≤ (findThreatsMove ai b).1
      · rw [if_pos h3, if_pos h3]
      · rw [if_neg h3, if_neg h3]
        by_cases h4 : (stoneBounds b.grid).hasStones = false
        · rw [if_pos h4, if_pos h4]
        · rw [if_neg h4, if_neg h4]
          rw [easyMovesLoop_eq]
          dsimp only
          rw [List.nil_append]
          rw [easyCandidates, easyRanges]

theorem makeMediumMove_eq (ai : AI) (b : Board) (oracle : Nat) :
    makeMediumMove ai b oracle = (makeMediumMoveP ai b oracle, b) := by
  rw [makeMediumMove, makeMediumMoveP]
  rw [findWinningMove_eq]
  dsimp only
  by_cases h1 : (0 : Int) ≤ (findWinningMoveP b.grid ai.player).1
  · rw [if_pos h1, if_pos h1]
  · rw [if_neg h1, if_neg h1]
    rw [findWinningMove_eq]
    dsimp only
    by_cases h2 : (0 : Int) ≤ (findWinningMoveP b.grid (getOpponent ai)).1
    · rw [if_pos h2, if_pos h2]
    · rw [if_neg h2, if_neg h2]
      rw [findOpenFourMove_eq]
      dsimp only
      by_cases h3 : (0 : Int) ≤ (findOpenFourMoveP b.grid ai.player).1
      · rw [if_pos h3, if_pos h3]
      · rw [if_neg h3, if_neg h3]
        rw [findOpenFourMove_eq]
        dsimp only
        by_cases h4 : (0 : Int) ≤ (findOpenFourMoveP b.grid (getOpponent ai)).1
        · rw [if_pos h4, if_pos h4]
        · rw [if_neg h4, if_neg h4]
          rw [findOpenThreeMove_eq]
          dsimp only
          by_cases h5 : (0 : Int) ≤ (findOpenThreeMoveP b.grid ai.player).1
          · rw [if_pos h5, if_pos h5]
          · rw [if_neg h5, if_neg h5]
            by_cases h6 : (0 : Int) ≤ (findThreatsMove ai b).1
            · rw [if_pos h6, if_pos h6]
            · rw [if_neg h6, if_neg h6]
              rw [mediumBestFold_eq]
              dsimp only
              by_cases h7 :
                (0 : Int) ≤ (cells.foldl (mediumBestStepP ai b) (-2147483648, (-1, -1))).2.1
              · rw [if_pos h7, if_pos h7]
              · rw [if_neg h7, if_neg h7]
                rw [makeEasyMove_eq]

theorem makeHardMove_eq (ai : AI) (b : Board) (oracle : Nat) :
    makeHardMove ai b oracle = (makeHardMoveP ai b oracle, b) := by
  rw [makeHardMove, makeHardMoveP]
  rw [findWinningMove_eq]
  dsimp only
  by_cases h1 : (0 : Int) ≤ (findWinningMoveP b.grid ai.player).1
  · rw [if_pos h1, if_pos h1]
  · rw [if_neg h1, if_neg h1]
    rw [findWinningMove_eq]
    dsimp only
    by_cases h2 : (0 : Int) ≤ (findWinningMoveP b.grid (getOpponent ai)).1
    · rw [if_pos h2, if_pos h2]
    · rw [if_neg h2, if_neg h2]
      rw [findAdvancedThreatMove_eq]
      dsimp only
      by_cases h3 : (0 : Int) ≤ (findAdvancedThreatMoveP b.grid ai.player).1
      · rw [if_pos h3, if_pos h3]
      · rw [if_neg h3, if_neg h3]
        rw [findAdvancedThreatMove_eq]
        dsimp only
        by_cases h4 : (0 : Int) ≤ (findAdvancedThreatMoveP b.grid (getOpponent ai)).1
        · rw [if_pos h4, if_pos h4]
        · rw [if_neg h4, if_neg h4]
          rw [findOpenThreeMove_eq]
          dsimp only
          by_cases h5 : (0 : Int) ≤ (findOpenThreeMoveP b.grid ai.player).1
          · rw [if_pos h5, if_pos h5]
          · rw [if_neg h5, if_neg h5]
            rw [findOpenThreeMove_eq]
            dsimp only
            by_cases h6 : (0 : Int) ≤ (findOpenThreeMoveP b.grid (getOpponent ai)).1
            · rw [if_pos h6, if_pos h6]
            · rw [if_neg h6, if_neg h6]
              rw [hardBestFold_eq]
              dsimp only
              by_cases h7 :
                (0 : Int) ≤ (cells.foldl (hardBestStepP ai b) (-2147483648, (-1, -1))).2.1
              · rw [if_pos h7, if_pos h7]
              · rw [if_neg h7, if_neg h7]
                rw [makeMediumMove_eq]

theorem makeMove_eq (ai : AI) (b : Board) (oracle : Nat) :
    makeMove ai b oracle = (makeMoveP ai b oracle, b) := by
  rw [makeMove, makeMoveP]
  cases ai.difficulty
  · exact makeEasyMove_eq ai b oracle
  · exact makeMediumMove_eq ai b oracle
  · exact makeHardMove_eq ai b oracle

/-- C3: the agent never mutates the board: for every board, difficulty and
random draw, `MakeMove` returns the board exactly as it found it — every
speculative placement performed by the winning-move, open-four, open-three,
advanced-threat and position-evaluation routines is reverted on every return
path (`none` models the only non-returning path, the `rand.Intn` panic, and
even there the last speculative write has already been reverted). -/
theorem makeMove_preserves_board (ai : AI) (b : Board) (oracle : Nat) :
    (makeMove ai b oracle).2 = b := by
  rw [makeMove_eq]

theorem doubleThreeWalk_eq_openWalk (g : Grid) (p : Player) (dr dc : Int) :
    ∀ (n : Nat) (r c : Int),
      (doubleThreeWalk g p dr dc n r c).1 = (openWalk g p dr dc n r c).1 ∧
      (doubleThreeWalk g p dr dc n r c).2.1 = (openWalk g p dr dc n r c).2 := by
  intro n
  induction n with
  | zero => intro r c; exact ⟨rfl, rfl⟩
  | succ k ih =>
    intro r c
    rw [doubleThreeWalk, openWalk]
    dsimp only
    by_cases hv : isValidPosition (r + dr) (c + dc) = false
    · rw [if_pos hv, if_pos hv]
      exact ⟨rfl, rfl⟩
    · rw [if_neg hv, if_neg hv]
      by_cases hp : g (r + dr) (c + dc) = p
      · rw [if_pos hp, if_pos hp]
        dsimp only
        exact ⟨by rw [(ih (r + dr) (c + dc)).1], (ih (r + dr) (c + dc)).2⟩
      · rw [if_neg hp, if_neg hp]
        by_cases he : g (r + dr) (c + dc) = Player.empty
        · rw [if_pos he, if_pos he]
          exact ⟨rfl, rfl⟩
        · rw [if_neg he, if_neg he]
          exact ⟨rfl, rfl⟩

theorem doubleThreeWalk_space_blocked (g : Grid) (p : Player) (dr dc : Int) :
    ∀ (n : Nat) (r c : Int),
      (doubleThreeWalk g p dr dc n r c).2.1 + (doubleThreeWalk g p dr dc n r c).2.2 ≤ 1 := by
  intro n
  induction n with
  | zero => intro r c; exact Nat.zero_le 1
  | succ k ih =>
    intro r c
    rw [doubleThreeWalk]
    dsimp only
    by_cases hv : isValidPosition (r + dr) (c + dc) = false
    · rw [if_pos hv]
      exact Nat.le_refl 1
    · rw [if_neg hv]
      by_cases hp : g (r + dr) (c + dc) = p
      · rw [if_pos hp]
        exact ih (r + dr) (c + dc)
      · rw [if_neg hp]
        by_cases he : g (r + dr) (c + dc) = Player.empty
        · rw [if_pos he]
          exact Nat.le_refl 1
        · rw [if_neg he]
          exact Nat.le_refl 1

theorem doubleThreeAxis_eq_openThreeAxis (g : Grid) (row col : Int) (d : Int × Int) :
    doubleThreeAxis g row col d = openThreeAxis g row col d := by
  have hf := doubleThreeWalk_eq_openWalk g (g row col) d.1 d.2 3 row col
  have hb := doubleThreeWalk_eq_openWalk g (g row col) (-d.1) (-d.2) 3 row col
  have hsf := doubleThreeWalk_space_blocked g (g row col) d.1 d.2 3 row col
  have hsb := doubleThreeWalk_space_blocked g (g row col) (-d.1) (-d.2) 3 row col
  rw [doubleThreeAxis, openThreeAxis]
  rw [hf.1, hf.2, hb.1, hb.2]
  rw [hf.2] at hsf
  rw [hb.2] at hsb
  by_cases hsp :
    (openWalk g (g row col) d.1 d.2 3 row col).2 +
      (openWalk g (g row col) (-d.1) (-d.2) 3 row col).2 = 2
  · have hz : (doubleThreeWalk g (g row col) d.1 d.2 3 row col).2.2 +
        (doubleThreeWalk g (g row col) (-d.1) (-d.2) 3 row col).2.2 = 0 := by omega
    simp [hsp, hz]
  · simp [hsp]

/-- C8: `hasDoubleThree` is true exactly when at least 2 of the 4 axes satisfy
the per-axis open-three condition of `hasOpenThree`, because the per-axis
predicate inside `hasDoubleThree` (`count == 3 && space == 2 && blocked == 0`)
coincides with the one inside `hasOpenThree` (`count == 3 && space == 2`):
`space == 2` forces both walks to have ended on an empty in-bounds cell, which
leaves `blocked` at 0. -/
theorem hasDoubleThree_iff_two_open_threes (g : Grid) (row col : Int)
    (h1 : 0 ≤ row) (h2 : row < boardSize) (h3 : 0 ≤ col) (h4 : col < boardSize)
    (hocc : g row col ≠ Player.empty) :
    (hasDoubleThree g row col = true ↔
      2 ≤ directions.countP (openThreeAxis g row col)) ∧
    (∀ d, doubleThreeAxis g row col d = openThreeAxis g row col d) := by
  have hax : ∀ d, doubleThreeAxis g row col d = openThreeAxis g row col d := fun d =>
    doubleThreeAxis_eq_openThreeAxis g row col d
  refine ⟨?_, hax⟩
  rw [hasDoubleThree]
  rw [List.countP_congr fun d _ => by rw [hax d]]
  simp

/-- Grid for the C8 witness: a double three through `(7, 7)` (vertical and
horizontal open threes simultaneously). -/
def gridCross : Grid := fun r c =>
  if (r = 7 ∧ (c = 6 ∨ c = 7 ∨ c = 8)) ∨ (c = 7 ∧ (r = 6 ∨ r = 8)) then Player.black
  else Player.empty

/-- Witness for C8: on `gridCross` both the vertical and the horizontal axis
carry an open three through the occupied centre cell, so `hasDoubleThree`
agrees with counting open-three axes. -/
theorem hasDoubleThree_iff_two_open_threes_witness :
    gridCross 7 7 = Player.black ∧ hasDoubleThree gridCross 7 7 = true := by
  refine ⟨by decide, ?_⟩
  exact (hasDoubleThree_iff_two_open_threes gridCross 7 7 (by norm_num)
    (by norm_num [boardSize]) (by norm_num) (by norm_num [boardSize]) (by decide)).1.mpr
    (by decide)

theorem isValidPosition_iff (i j : Int) :
    isValidPosition i j = true ↔ 0 ≤ i ∧ i < boardSize ∧ 0 ≤ j ∧ j < boardSize := by
  simp only [isValidPosition, Bool.and_eq_true, decide_eq_true_eq]
  tauto

theorem mem_cells (i j : Int) :
    (i, j) ∈ cells ↔ 0 ≤ i ∧ i < boardSize ∧ 0 ≤ j ∧ j < boardSize := by
  rw [show boardSize = 15 from rfl]
  constructor
  · intro h
    obtain ⟨a, ha, hin⟩ := List.mem_flatMap.mp h
    obtain ⟨bb, hbb, heq⟩ := List.mem_map.mp hin
    rw [List.mem_range] at ha hbb
    have h1 : ((a : Nat) : Int) = i := congrArg Prod.fst heq
    have h2 : ((bb : Nat) : Int) = j := congrArg Prod.snd heq
    omega
  · rintro ⟨h1, h2, h3, h4⟩
    have hpair : (i, j) = (((i.toNat : Nat) : Int), ((j.toNat : Nat) : Int)) := by
      rw [Prod.mk.injEq]
      constructor <;> omega
    rw [hpair]
    exact List.mem_flatMap.mpr ⟨i.toNat, List.mem_range.mpr (by omega),
      List.mem_map.mpr ⟨j.toNat, List.mem_range.mpr (by omega), rfl⟩⟩

theorem mem_intRange (lo hi m : Int) : m ∈ intRange lo hi ↔ lo ≤ m ∧ m ≤ hi := by
  constructor
  · intro h
    obtain ⟨k, hk, heq⟩ := List.mem_map.mp h
    rw [List.mem_range] at hk
    omega
  · rintro ⟨h1, h2⟩
    exact List.mem_map.mpr ⟨(m - lo).toNat, List.mem_range.mpr (by omega), by omega⟩

theorem mem_subCells (a b2 c d i j : Int) :
    (i, j) ∈ subCells a b2 c d ↔ (a ≤ i ∧ i ≤ b2) ∧ (c ≤ j ∧ j ≤ d) := by
  constructor
  · intro h
    obtain ⟨x, hx, hin⟩ := List.mem_flatMap.mp h
    obtain ⟨y, hy, heq⟩ := List.mem_map.mp hin
    have e1 : x = i := congrArg Prod.fst heq
    have e2 : y = j := congrArg Prod.snd heq
    rw [e1] at hx
    rw [e2] at hy
    exact ⟨(mem_intRange a b2 i).mp hx, (mem_intRange c d j).mp hy⟩
  · rintro ⟨hi, hj⟩
    exact List.mem_flatMap.mpr ⟨i, (mem_intRange a b2 i).mpr hi,
      List.mem_map.mpr ⟨j, (mem_intRange c d j).mpr hj, rfl⟩⟩

/-- True exactly when the board has no empty cell ("a completely full board"). -/
def noEmptyCellB (b : Board) : Bool :=
  cells.all fun p => !(b.grid p.1 p.2 == Player.empty)

theorem noEmptyCellB_iff (b : Board) :
    noEmptyCellB b = true ↔ ∀ p ∈ cells, b.grid p.1 p.2 ≠ Player.empty := by
  simp [noEmptyCellB, List.all_eq_true]

/-- The well-formedness of a returned move: in bounds and empty on the given
board (`none`, the panic, never qualifies). -/
def moveOk (b : Board) : Option (Int × Int) → Bool
  | none => false
  | some mv => isValidPosition mv.1 mv.2 && (b.grid mv.1 mv.2 == Player.empty)

theorem findWinningMoveLoopP_cases (g : Grid) (pl : Player) :
    ∀ l : List (Int × Int),
      findWinningMoveLoopP g pl l = (-1, -1) ∨
      (findWinningMoveLoopP g pl l ∈ l ∧
        g (findWinningMoveLoopP g pl l).1 (findWinningMoveLoopP g pl l).2 = Player.empty) := by
  intro l
  induction l with
  | nil => exact Or.inl rfl
  | cons p rest ih =>
    obtain ⟨i, j⟩ := p
    rw [findWinningMoveLoopP]
    by_cases h : g i j = Player.empty
    · rw [if_pos h]
      by_cases hw : checkWin (setCell g i j pl) i j = true
      · rw [if_pos hw]
        exact Or.inr ⟨by simp, h⟩
      · rw [if_neg hw]
        rcases ih with h1 | ⟨h1, h2⟩
        · exact Or.inl h1
        · exact Or.inr ⟨by simp [h1], h2⟩
    · rw [if_neg h]
      rcases ih with h1 | ⟨h1, h2⟩
      · exact Or.inl h1
      · exact Or.inr ⟨by simp [h1], h2⟩

theorem findWinningMoveLoopP_full (g : Grid) (pl : Player) :
    ∀ l : List (Int × Int), (∀ p ∈ l, g p.1 p.2 ≠ Player.empty) →
      findWinningMoveLoopP g pl l = (-1, -1) := by
  intro l
  induction l with
  | nil => intro _; rfl
  | cons p rest ih =>
    obtain ⟨i, j⟩ := p
    intro hfull
    rw [findWinningMoveLoopP, if_neg (hfull (i, j) (by simp))]
    exact ih fun q hq => hfull q (by simp [hq])

theorem findOpenFourMoveLoopP_cases (g : Grid) (pl : Player) :
    ∀ l : List (Int × Int),
      findOpenFourMoveLoopP g pl l = (-1, -1) ∨
      (findOpenFourMoveLoopP g pl l ∈ l ∧
        g (findOpenFourMoveLoopP g pl l).1 (findOpenFourMoveLoopP g pl l).2 = Player.empty) := by
  intro l
  induction l with
  | nil => exact Or.inl rfl
  | cons p rest ih =>
    obtain ⟨i, j⟩ := p
    rw [findOpenFourMoveLoopP]
    by_cases h : g i j = Player.empty
    · rw [if_neg (by simp [h])]
      by_cases hw : hasOpenFour (setCell g i j pl) i j = true
      · rw [if_pos hw]
        exact Or.inr ⟨by simp, h⟩
      · rw [if_neg hw]
        rcases ih with h1 | ⟨h1, h2⟩
        · exact Or.inl h1
        · exact Or.inr ⟨by simp [h1], h2⟩
    · rw [if_pos h]
      rcases ih with h1 | ⟨h1, h2⟩
      · exact Or.inl h1
      · exact Or.inr ⟨by simp [h1], h2⟩

theorem findOpenFourMoveLoopP_full (g : Grid) (pl : Player) :
    ∀ l : List (Int × Int), (∀ p ∈ l, g p.1 p.2 ≠ Player.empty) →
      findOpenFourMoveLoopP g pl l = (-1, -1) := by
  intro l
  induction l with
  | nil => intro _; rfl
  | cons p rest ih =>
    obtain ⟨i, j⟩ := p
    intro hfull
    rw [findOpenFourMoveLoopP, if_pos (hfull (i, j) (by simp))]
    exact ih fun q hq => hfull q (by simp [hq])

theorem findOpenThreeMoveLoopP_cases (g : Grid) (pl : Player) :
    ∀ l : List (Int × Int),
      findOpenThreeMoveLoopP g pl l = (-1, -1) ∨
      (findOpenThreeMoveLoopP g pl l ∈ l ∧
        g (findOpenThreeMoveLoopP g pl l).1 (findOpenThreeMoveLoopP g pl l).2 = Player.empty) := by
  intro l
  induction l with
  | nil => exact Or.inl rfl
  | cons p rest ih =>
    obtain ⟨i, j⟩ := p
    rw [findOpenThreeMoveLoopP]
    by_cases h : g i j = Player.empty
    · rw [if_neg (by simp [h])]
      by_cases hw : hasOpenThree (setCell g i j pl) i j = true
      · rw [if_pos hw]
        exact Or.inr ⟨by simp, h⟩
      · rw [if_neg hw]
        rcases ih with h1 | ⟨h1, h2⟩
        · exact Or.inl h1
        · exact Or.inr ⟨by simp [h1], h2⟩
    · rw [if_pos h]
      rcases ih with h1 | ⟨h1, h2⟩
      · exact Or.inl h1
      · exact Or.inr ⟨by simp [h1], h2⟩

theorem findOpenThreeMoveLoopP_full (g : Grid) (pl : Player) :
    ∀ l : List (Int × Int), (∀ p ∈ l, g p.1 p.2 ≠ Player.empty) →
      findOpenThreeMoveLoopP g pl l = (-1, -1) := by
  intro l
  induction l with
  | nil => intro _; rfl
  | cons p rest ih =>
    obtain ⟨i, j⟩ := p
    intro hfull
    rw [findOpenThreeMoveLoopP, if_pos (hfull (i, j) (by simp))]
    exact ih fun q hq => hfull q (by simp [hq])

theorem findAdvancedThreatMoveLoopP_cases (g : Grid) (pl : Player) :
    ∀ l : List (Int × Int),
      findAdvancedThreatMoveLoopP g pl l = (-1, -1) ∨
      (findAdvancedThreatMoveLoopP g pl l ∈ l ∧
        g (findAdvancedThreatMoveLoopP g pl l).1 (findAdvancedThreatMoveLoopP g pl l).2 =
          Player.empty) := by
  intro l
  induction l with
  | nil => exact Or.inl rfl
  | cons p rest ih =>
    obtain ⟨i, j⟩ := p
    rw [findAdvancedThreatMoveLoopP]
    by_cases h : g i j = Player.empty
    · rw [if_neg (by simp [h])]
      by_cases hw : hasOpenFour (setCell g i j pl) i j = true
      · rw [if_pos hw]
        exact Or.inr ⟨by simp, h⟩
      · rw [if_neg hw]
        by_cases hd : hasDoubleThree (setCell g i j pl) i j = true
        · rw [if_pos hd]
          exact Or.inr ⟨by simp, h⟩
        · rw [if_neg hd]
          rcases ih with h1 | ⟨h1, h2⟩
          · exact Or.inl h1
          · exact Or.inr ⟨by simp [h1], h2⟩
    · rw [if_pos h]
      rcases ih with h1 | ⟨h1, h2⟩
      · exact Or.inl h1
      · exact Or.inr ⟨by simp [h1], h2⟩

theorem findAdvancedThreatMoveLoopP_full (g : Grid) (pl : Player) :
    ∀ l : List (Int × Int), (∀ p ∈ l, g p.1 p.2 ≠ Player.empty) →
      findAdvancedThreatMoveLoopP g pl l = (-1, -1) := by
  intro l
  induction l with
  | nil => intro _; rfl
  | cons p rest ih =>
    obtain ⟨i, j⟩ := p
    intro hfull
    rw [findAdvancedThreatMoveLoopP, if_pos (hfull (i, j) (by simp))]
    exact ih fun q hq => hfull q (by simp [hq])

theorem findThreatsMoveLoop_cases (g : Grid) (opp : Player) :
    ∀ l : List (Int × Int),
      findThreatsMoveLoop g opp l = (-1, -1) ∨
      (findThreatsMoveLoop g opp l ∈ l ∧
        g (findThreatsMoveLoop g opp l).1 (findThreatsMoveLoop g opp l).2 = Player.empty) := by
  intro l
  induction l with
  | nil => exact Or.inl rfl
  | cons p rest ih =>
    obtain ⟨i, j⟩ := p
    rw [findThreatsMoveLoop]
    by_cases h : g i j = Player.empty
    · rw [if_neg (by simp [h])]
      by_cases hw : threatAt g opp i j = true
      · rw [if_pos hw]
        exact Or.inr ⟨by simp, h⟩
      · rw [if_neg hw]
        rcases ih with h1 | ⟨h1, h2⟩
        · exact Or.inl h1
        · exact Or.inr ⟨by simp [h1], h2⟩
    · rw [if_pos h]
      rcases ih with h1 | ⟨h1, h2⟩
      · exact Or.inl h1
      · exact Or.inr ⟨by simp [h1], h2⟩

theorem findThreatsMoveLoop_full (g : Grid) (opp : Player) :
    ∀ l : List (Int × Int), (∀ p ∈ l, g p.1 p.2 ≠ Player.empty) →
      findThreatsMoveLoop g opp l = (-1, -1) := by
  intro l
  induction l with
  | nil => intro _; rfl
  | cons p rest ih =>
    obtain ⟨i, j⟩ := p
    intro hfull
    rw [findThreatsMoveLoop, if_pos (hfull (i, j) (by simp))]
    exact ih fun q hq => hfull q (by simp [hq])

theorem firstEmptyCell_some (g : Grid) :
    ∀ (l : List (Int × Int)) (mv : Int × Int),
      firstEmptyCell g l = some mv → mv ∈ l ∧ g mv.1 mv.2 = Player.empty := by
  intro l
  induction l with
  | nil => intro mv h; cases h
  | cons p rest ih =>
    obtain ⟨i, j⟩ := p
    intro mv h
    rw [firstEmptyCell] at h
    by_cases he : g i j = Player.empty
    · rw [if_pos he] at h
      obtain rfl := Option.some_inj.mp h
      exact ⟨by simp, he⟩
    · rw [if_neg he] at h
      obtain ⟨h1, h2⟩ := ih mv h
      exact ⟨by simp [h1], h2⟩

theorem firstEmptyCell_none (g : Grid) :
    ∀ l : List (Int × Int),
      firstEmptyCell g l = none ↔ ∀ p ∈ l, g p.1 p.2 ≠ Player.empty := by
  intro l
  induction l with
  | nil => simp [firstEmptyCell]
  | cons p rest ih =>
    obtain ⟨i, j⟩ := p
    rw [firstEmptyCell]
    by_cases he : g i j = Player.empty
    · rw [if_pos he]
      simp [he]
    · rw [if_neg he]
      rw [ih]
      constructor
      · intro hall q hq
        rcases List.mem_cons.mp hq with rfl | hq2
        · exact he
        · exact hall q hq2
      · intro hall q hq
        exact hall q (by simp [hq])

theorem stoneBounds_hasStones_aux (g : Grid) :
    ∀ (l : List (Int × Int)) (acc : BoundsAcc),
      (l.foldl (boundsStep g) acc).hasStones =
        (acc.hasStones || l.any fun p => !(g p.1 p.2 == Player.empty)) := by
  intro l
  induction l with
  | nil => intro acc; simp
  | cons p rest ih =>
    intro acc
    rw [List.foldl_cons, List.any_cons, ih]
    rw [boundsStep]
    by_cases h : g p.1 p.2 = Player.empty
    · rw [if_neg (by simp [h])]
      simp [h]
    · rw [if_pos h]
      simp [h]

theorem stoneBounds_hasStones (g : Grid) :
    (stoneBounds g).hasStones = cells.any fun p => !(g p.1 p.2 == Player.empty) := by
  rw [stoneBounds, stoneBounds_hasStones_aux]
  simp

theorem easyMovesLoopP_full (ai : AI) (b : Board) (lr lc : Int) :
    ∀ l : List (Int × Int), (∀ p ∈ l, b.grid p.1 p.2 ≠ Player.empty) →
      easyMovesLoopP ai b lr lc l = [] := by
  intro l
  induction l with
  | nil => intro _; rfl
  | cons p rest ih =>
    obtain ⟨i, j⟩ := p
    intro hfull
    rw [easyMovesLoopP, if_neg (hfull (i, j) (by simp))]
    exact ih fun q hq => hfull q (by simp [hq])

theorem easyMovesLoopP_mem (ai : AI) (b : Board) (lr lc : Int) :
    ∀ (l : List (Int × Int)) (m : Int × Int × Int),
      m ∈ easyMovesLoopP ai b lr lc l →
      (m.1, m.2.1) ∈ l ∧ b.grid m.1 m.2.1 = Player.empty ∧
        m.2.2 = easyWeightP ai b lr lc m.1 m.2.1 := by
  intro l
  induction l with
  | nil => intro m hm; cases hm
  | cons p rest ih =>
    obtain ⟨i, j⟩ := p
    intro m hm
    rw [easyMovesLoopP] at hm
    by_cases h : b.grid i j = Player.empty
    · rw [if_pos h] at hm
      rcases List.mem_cons.mp hm with rfl | hm2
      · exact ⟨by simp, h, rfl⟩
      · obtain ⟨h1, h2, h3⟩ := ih m hm2
        exact ⟨by simp [h1], h2, h3⟩
    · rw [if_neg h] at hm
      obtain ⟨h1, h2, h3⟩ := ih m hm
      exact ⟨by simp [h1], h2, h3⟩

theorem easyScan_mem (rw0 : Int) :
    ∀ (moves : List (Int × Int × Int)) (cw : Int) (mv : Int × Int),
      easyScan rw0 cw moves = some mv → ∃ m ∈ moves, mv = (m.1, m.2.1) := by
  intro moves
  induction moves with
  | nil => intro cw mv h; cases h
  | cons m rest ih =>
    intro cw mv h
    rw [easyScan] at h
    by_cases hlt : rw0 < cw + m.2.2
    · rw [if_pos hlt] at h
      exact ⟨m, by simp, (Option.some_inj.mp h).symm⟩
    · rw [if_neg hlt] at h
      obtain ⟨m2, hm2, he⟩ := ih (cw + m.2.2) mv h
      exact ⟨m2, by simp [hm2], he⟩

theorem foldl_best_mem (moves : List (Int × Int × Int)) :
    ∀ (l : List (Int × Int × Int)) (acc : Int × Int × Int),
      acc ∈ moves → (∀ m ∈ l, m ∈ moves) →
      l.foldl (fun best m => if best.2.2 < m.2.2 then m else best) acc ∈ moves := by
  intro l
  induction l with
  | nil => intro acc ha _; exact ha
  | cons m rest ih =>
    intro acc ha hl
    rw [List.foldl_cons]
    by_cases hlt : acc.2.2 < m.2.2
    · rw [if_pos hlt]
      exact ih _ (hl m (by simp)) fun x hx => hl x (by simp [hx])
    · rw [if_neg hlt]
      exact ih _ ha fun x hx => hl x (by simp [hx])

theorem bestWeightMove_mem (moves : List (Int × Int × Int)) (h : moves ≠ []) :
    bestWeightMove moves ∈ moves := by
  rw [bestWeightMove]
  refine foldl_best_mem moves moves _ ?_ fun m hm => hm
  cases moves with
  | nil => exact absurd rfl h
  | cons m rest => simp [List.getD]

/-- C9 (amended): when the Easy tier reaches its weighted-sampling step with a
non-empty candidate list AND the total weight is strictly positive, the draw is
well-defined (no `rand.Intn` panic) and the selection — the cumulative-sum scan
or, failing that, the highest-weight fallback — returns one of the candidate
moves.  (Candidate weights can be negative, see the counterexample, so the
positivity of the total is a genuine extra hypothesis.) -/
theorem easy_sampling_returns_candidate (ai : AI) (b : Board) (oracle : Nat)
    (h1 : ¬ 0 ≤ (findWinningMoveP b.grid ai.player).1)
    (h2 : ¬ 0 ≤ (findWinningMoveP b.grid (getOpponent ai)).1)
    (h3 : ¬ 0 ≤ (findThreatsMove ai b).1)
    (h4 : ¬ (stoneBounds b.grid).hasStones = false)
    (h5 : easyCandidates ai b ≠ [])
    (hpos : 0 < (easyCandidates ai b).foldl (fun s m => s + m.2.2) 0) :
    (makeEasyMove ai b oracle).1 ∈ (easyCandidates ai b).map fun m => some (m.1, m.2.1) := by
  rw [makeEasyMove_eq]
  dsimp only
  rw [makeEasyMoveP]
  dsimp only
  rw [if_neg h1, if_neg h2, if_neg h3, if_neg h4]
  rw [easySample]
  rw [if_pos (by exact List.length_pos.mpr h5)]
  dsimp only
  rw [if_neg (by omega)]
  cases hscan : easyScan
      ((oracle %
          (List.foldl (fun (s : Int) (m : Int × Int × Int) => s + m.2.2) 0
            (easyCandidates ai b)).toNat : Nat) : Int) 0
      (easyCandidates ai b) with
  | some mv =>
    obtain ⟨m, hm, he⟩ := easyScan_mem _ (easyCandidates ai b) 0 mv hscan
    refine List.mem_map.mpr ⟨m, hm, ?_⟩
    rw [he]
  | none =>
    refine List.mem_map.mpr ⟨bestWeightMove (easyCandidates ai b),
      bestWeightMove_mem (easyCandidates ai b) h5, rfl⟩

/-- A realistic mid-game board for the C9 witness: Black has played the centre,
White (the agent) is to move. -/
def boardOneStone : Board :=
  { grid := fun r c => if r = 7 ∧ c = 7 then Player.black else Player.empty
    currentTurn := Player.white
    moveHistory := [(7, 7)]
    gameFinished := false }

def aiWhiteEasy : AI := { player := Player.white, difficulty := Difficulty.easy }

def boardTwoStones : Board :=
  { grid := fun r c =>
      if r = 0 ∧ c = 0 then Player.black
      else if r = 14 ∧ c = 14 then Player.white
      else Player.empty
    currentTurn := Player.black
    moveHistory := [(0, 0), (14, 14)]
    gameFinished := false }

set_option maxHeartbeats 16000000 in
set_option maxRecDepth 100000 in
/-- Witness for C9's amended theorem on `boardOneStone` (total weight positive,
the sampled move is one of the candidates). -/
theorem easy_sampling_returns_candidate_witness :
    (makeEasyMove aiWhiteEasy boardOneStone 0).1 ∈
      (easyCandidates aiWhiteEasy boardOneStone).map fun m => some (m.1, m.2.1) :=
  easy_sampling_returns_candidate aiWhiteEasy boardOneStone 0 (by decide) (by decide)
    (by decide) (by decide) (by decide) (by decide)

/-- The statement of C9 as frozen, at one agent/board: if the Easy tier reaches
the weighted-sampling step (no winning move for either side, no threat block,
stones present) with a non-empty candidate list, then every candidate weight is
non-negative and the total weight is strictly positive. -/
def easyWeightsClaimAt (ai : AI) (b : Board) : Prop :=
  (¬ 0 ≤ (findWinningMoveP b.grid ai.player).1) ∧
  (¬ 0 ≤ (findWinningMoveP b.grid (getOpponent ai)).1) ∧
  (¬ 0 ≤ (findThreatsMove ai b).1) ∧
  (stoneBounds b.grid).hasStones = true ∧
  easyCandidates ai b ≠ [] →
    (∀ m ∈ easyCandidates ai b, 0 ≤ m.2.2) ∧
    0 < (easyCandidates ai b).foldl (fun s m => s + m.2.2) 0

set_option maxHeartbeats 16000000 in
set_option maxRecDepth 100000 in
/-- Counterexample to C9 as stated: on `boardTwoStones` the Easy tier reaches
the sampling step, and the candidate `(2, 2)` — far from the centre and from
the last move, with no nearby stones — receives the negative weight `-35`
(100 + evaluatePosition = -70, halved toward zero). -/
theorem easy_weights_can_be_negative : ¬ easyWeightsClaimAt aiWhiteEasy boardTwoStones := by
  intro hcl
  have hneg := (hcl ⟨by decide, by decide, by decide, by decide, by decide⟩).1
    (2, 2, -35) (by decide)
  simp at hneg

theorem mem_cells_pair (p : Int × Int) :
    p ∈ cells ↔ 0 ≤ p.1 ∧ p.1 < boardSize ∧ 0 ≤ p.2 ∧ p.2 < boardSize := by
  obtain ⟨i, j⟩ := p
  exact mem_cells i j

theorem moveOk_some (b : Board) (mv : Int × Int)
    (hv : 0 ≤ mv.1 ∧ mv.1 < boardSize ∧ 0 ≤ mv.2 ∧ mv.2 < boardSize)
    (he : b.grid mv.1 mv.2 = Player.empty) : moveOk b (some mv) = true := by
  rw [moveOk]
  rw [Bool.and_eq_true]
  exact ⟨(isValidPosition_iff mv.1 mv.2).mpr hv, by simp [he]⟩

theorem moveOk_neg_one (b : Board) : moveOk b (some (-1, -1)) = false := by
  rw [moveOk]
  rw [show isValidPosition (-1) (-1) = false from rfl]
  rfl

theorem easyCandidates_mem_props (ai : AI) (b : Board) (m : Int × Int × Int)
    (hm : m ∈ easyCandidates ai b) :
    (2 ≤ m.1 ∧ m.1 ≤ boardSize - 3 ∧ 2 ≤ m.2.1 ∧ m.2.1 ≤ boardSize - 3) ∧
    b.grid m.1 m.2.1 = Player.empty := by
  rw [easyCandidates] at hm
  obtain ⟨h1, h2, _⟩ := easyMovesLoopP_mem ai b _ _ _ m hm
  obtain ⟨⟨ha, hb⟩, hc, hd⟩ := (mem_subCells _ _ _ _ m.1 m.2.1).mp h1
  rw [easyRanges] at ha hb hc hd
  exact ⟨⟨le_trans (le_max_left 2 _) ha, le_trans hb (min_le_left _ _),
    le_trans (le_max_left 2 _) hc, le_trans hd (min_le_left _ _)⟩, h2⟩

theorem easyCandidates_moveOk (ai : AI) (b : Board) (m : Int × Int × Int)
    (hm : m ∈ easyCandidates ai b) : moveOk b (some (m.1, m.2.1)) = true := by
  obtain ⟨⟨ha, hb, hc, hd⟩, he⟩ := easyCandidates_mem_props ai b m hm
  rw [show boardSize = 15 from rfl] at hb hd
  have h2 : m.1 < boardSize := by
    rw [show boardSize = 15 from rfl]
    omega
  have h4 : m.2.1 < boardSize := by
    rw [show boardSize = 15 from rfl]
    omega
  exact moveOk_some b (m.1, m.2.1) ⟨by omega, h2, by omega, h4⟩ he

theorem grid_empty_of_not_stone (b : Board) (i j : Int)
    (h : ¬ b.grid i j ≠ Player.empty) : b.grid i j = Player.empty := not_not.mp h

/-- Full characterisation of the pure Easy tier: it either panics (`none`),
or returns `(-1, -1)` on a full board, or returns an in-bounds empty cell. -/
theorem makeEasyMoveP_cases (ai : AI) (b : Board) (oracle : Nat) :
    makeEasyMoveP ai b oracle = none ∨
    (makeEasyMoveP ai b oracle = some (-1, -1) ∧ noEmptyCellB b = true) ∨
    moveOk b (makeEasyMoveP ai b oracle) = true := by
  rw [makeEasyMoveP]
  dsimp only
  by_cases h1 : (0 : Int) ≤ (findWinningMoveP b.grid ai.player).1
  · rw [if_pos h1]
    rcases findWinningMoveLoopP_cases b.grid ai.player cells with hc | ⟨hmem, hemp⟩
    · rw [findWinningMoveP, hc] at h1
      norm_num at h1
    · refine Or.inr (Or.inr ?_)
      rw [findWinningMoveP]
      exact moveOk_some b _ ((mem_cells_pair _).mp hmem) hemp
  · rw [if_neg h1]
    by_cases h2 : (0 : Int) ≤ (findWinningMoveP b.grid (getOpponent ai)).1
    · rw [if_pos h2]
      rcases findWinningMoveLoopP_cases b.grid (getOpponent ai) cells with hc | ⟨hmem, hemp⟩
      · rw [findWinningMoveP, hc] at h2
        norm_num at h2
      · refine Or.inr (Or.inr ?_)
        rw [findWinningMoveP]
        exact moveOk_some b _ ((mem_cells_pair _).mp hmem) hemp
    · rw [if_neg h2]
      by_cases h3 : (0 : Int) ≤ (findThreatsMove ai b).1
      · rw [if_pos h3]
        rcases findThreatsMoveLoop_cases b.grid (getOpponent ai) cells with hc | ⟨hmem, hemp⟩
        · rw [findThreatsMove, hc] at h3
          norm_num at h3
        · refine Or.inr (Or.inr ?_)
          rw [findThreatsMove]
          exact moveOk_some b _ ((mem_cells_pair _).mp hmem) hemp
      · rw [if_neg h3]
        by_cases h4 : (stoneBounds b.grid).hasStones = false
        · rw [if_pos h4]
          refine Or.inr (Or.inr ?_)
          rw [stoneBounds_hasStones] at h4
          have hall : ∀ p ∈ cells, b.grid p.1 p.2 = Player.empty := by
            intro p hp
            by_contra hne
            have : cells.any (fun p => !(b.grid p.1 p.2 == Player.empty)) = true :=
              List.any_eq_true.mpr ⟨p, hp, by simp [hne]⟩
            rw [h4] at this
            cases this
          exact moveOk_some b _ (by decide) (hall (7, 7) (by decide))
        · rw [if_neg h4]
          rw [easySample]
          by_cases h5 : 0 < (easyCandidates ai b).length
          · rw [if_pos h5]
            dsimp only
            by_cases h6 : (easyCandidates ai b).foldl (fun s m => s + m.2.2) 0 ≤ 0
            · rw [if_pos h6]
              exact Or.inl rfl
            · rw [if_neg h6]
              cases hscan : easyScan
                  ((oracle %
                      (List.foldl (fun (s : Int) (m : Int × Int × Int) => s + m.2.2) 0
                        (easyCandidates ai b)).toNat : Nat) : Int) 0
                  (easyCandidates ai b) with
              | some mv =>
                obtain ⟨m, hm, he⟩ := easyScan_mem _ (easyCandidates ai b) 0 mv hscan
                refine Or.inr (Or.inr ?_)
                rw [he]
                exact easyCandidates_moveOk ai b m hm
              | none =>
                refine Or.inr (Or.inr ?_)
                exact easyCandidates_moveOk ai b _
                  (bestWeightMove_mem (easyCandidates ai b)
                    (by intro hnil; rw [hnil] at h5; cases h5))
          · rw [if_neg h5]
            cases hfe : firstEmptyCell b.grid cells with
            | some mv =>
              obtain ⟨hmem, hemp⟩ := firstEmptyCell_some b.grid cells mv hfe
              refine Or.inr (Or.inr ?_)
              exact moveOk_some b mv ((mem_cells_pair mv).mp hmem) hemp
            | none =>
              refine Or.inr (Or.inl ⟨rfl, ?_⟩)
              rw [noEmptyCellB_iff]
              exact (firstEmptyCell_none b.grid cells).mp hfe

/-- On a completely full board the pure Easy tier returns `(-1, -1)`. -/
theorem makeEasyMoveP_full (ai : AI) (b : Board) (oracle : Nat)
    (hfull : noEmptyCellB b = true) : makeEasyMoveP ai b oracle = some (-1, -1) := by
  have hall := (noEmptyCellB_iff b).mp hfull
  rw [makeEasyMoveP]
  dsimp only
  rw [findWinningMoveP, findWinningMoveLoopP_full b.grid ai.player cells hall]
  rw [if_neg (by norm_num)]
  rw [findWinningMoveP, findWinningMoveLoopP_full b.grid (getOpponent ai) cells hall]
  rw [if_neg (by norm_num)]
  rw [findThreatsMove, findThreatsMoveLoop_full b.grid (getOpponent ai) cells hall]
  rw [if_neg (by norm_num)]
  have hstones : (stoneBounds b.grid).hasStones = true := by
    rw [stoneBounds_hasStones]
    exact List.any_eq_true.mpr ⟨(0, 0), by decide, by simp [hall (0, 0) (by decide)]⟩
  rw [if_neg (by rw [hstones]; intro hcontra; cases hcontra)]
  rw [easySample]
  have hcand : easyCandidates ai b = [] := by
    rw [easyCandidates]
    refine easyMovesLoopP_full ai b _ _ _ ?_
    intro p hp
    obtain ⟨⟨ha, hb⟩, hc, hd⟩ := (mem_subCells _ _ _ _ p.1 p.2).mp (by
      obtain ⟨i, j⟩ := p
      exact hp)
    rw [easyRanges] at ha hb hc hd
    refine hall p ((mem_cells p.1 p.2).mpr ?_)
    have ha2 := le_trans (le_max_left 2 _) ha
    have hb2 := le_trans hb (min_le_left _ _)
    have hc2 := le_trans (le_max_left 2 _) hc
    have hd2 := le_trans hd (min_le_left _ _)
    rw [show boardSize = 15 from rfl] at hb2 hd2 ⊢
    omega
  rw [hcand]
  rw [if_neg (by norm_num)]
  rw [(firstEmptyCell_none b.grid cells).mpr hall]

theorem mediumBestFoldP_cases (ai : AI) (b : Board) :
    ∀ (l : List (Int × Int)) (acc : Int × (Int × Int)),
      (l.foldl (mediumBestStepP ai b) acc).2 = acc.2 ∨
      ((l.foldl (mediumBestStepP ai b) acc).2 ∈ l ∧
        b.grid (l.foldl (mediumBestStepP ai b) acc).2.1
          (l.foldl (mediumBestStepP ai b) acc).2.2 = Player.empty) := by
  intro l
  induction l with
  | nil => intro acc; exact Or.inl rfl
  | cons p rest ih =>
    intro acc
    rw [List.foldl_cons]
    rcases ih (mediumBestStepP ai b acc p) with h | ⟨h1, h2⟩
    · rw [h]
      rw [mediumBestStepP]
      by_cases hemp : b.grid p.1 p.2 = Player.empty
      · rw [if_pos hemp]
        dsimp only
        by_cases hlt : acc.1 < evaluatePositionMediumP ai b p.1 p.2
        · rw [if_pos hlt]
          exact Or.inr ⟨by simp, hemp⟩
        · rw [if_neg hlt]
          exact Or.inl rfl
      · rw [if_neg hemp]
        exact Or.inl rfl
    · exact Or.inr ⟨by simp [h1], h2⟩

theorem mediumBestFoldP_full (ai : AI) (b : Board) :
    ∀ (l : List (Int × Int)) (acc : Int × (Int × Int)),
      (∀ p ∈ l, b.grid p.1 p.2 ≠ Player.empty) →
      l.foldl (mediumBestStepP ai b) acc = acc := by
  intro l
  induction l with
  | nil => intro acc _; rfl
  | cons p rest ih =>
    intro acc hfull
    rw [List.foldl_cons, mediumBestStepP, if_neg (hfull p (by simp))]
    exact ih acc fun q hq => hfull q (by simp [hq])

theorem hardBestFoldP_cases (ai : AI) (b : Board) :
    ∀ (l : List (Int × Int)) (acc : Int × (Int × Int)),
      (l.foldl (hardBestStepP ai b) acc).2 = acc.2 ∨
      ((l.foldl (hardBestStepP ai b) acc).2 ∈ l ∧
        b.grid (l.foldl (hardBestStepP ai b) acc).2.1
          (l.foldl (hardBestStepP ai b) acc).2.2 = Player.empty) := by
  intro l
  induction l with
  | nil => intro acc; exact Or.inl rfl
  | cons p rest ih =>
    intro acc
    rw [List.foldl_cons]
    rcases ih (hardBestStepP ai b acc p) with h | ⟨h1, h2⟩
    · rw [h]
      rw [hardBestStepP]
      by_cases hemp : b.grid p.1 p.2 = Player.empty
      · rw [if_pos hemp]
        dsimp only
        by_cases hlt : acc.1 < evaluatePositionHardP ai b p.1 p.2
        · rw [if_pos hlt]
          exact Or.inr ⟨by simp, hemp⟩
        · rw [if_neg hlt]
          exact Or.inl rfl
      · rw [if_neg hemp]
        exact Or.inl rfl
    · exact Or.inr ⟨by simp [h1], h2⟩

theorem hardBestFoldP_full (ai : AI) (b : Board) :
    ∀ (l : List (Int × Int)) (acc : Int × (Int × Int)),
      (∀ p ∈ l, b.grid p.1 p.2 ≠ Player.empty) →
      l.foldl (hardBestStepP ai b) acc = acc := by
  intro l
  induction l with
  | nil => intro acc _; rfl
  | cons p rest ih =>
    intro acc hfull
    rw [List.foldl_cons, hardBestStepP, if_neg (hfull p (by simp))]
    exact ih acc fun q hq => hfull q (by simp [hq])

theorem makeMediumMoveP_cases (ai : AI) (b : Board) (oracle : Nat) :
    makeMediumMoveP ai b oracle = none ∨
    (makeMediumMoveP ai b oracle = some (-1, -1) ∧ noEmptyCellB b = true) ∨
    moveOk b (makeMediumMoveP ai b oracle) = true := by
  rw [makeMediumMoveP]
  dsimp only
  by_cases h1 : (0 : Int) ≤ (findWinningMoveP b.grid ai.player).1
  · rw [if_pos h1]
    rcases findWinningMoveLoopP_cases b.grid ai.player cells with hc | ⟨hmem, hemp⟩
    · rw [findWinningMoveP, hc] at h1
      norm_num at h1
    · refine Or.inr (Or.inr ?_)
      rw [findWinningMoveP]
      exact moveOk_some b _ ((mem_cells_pair _).mp hmem) hemp
  · rw [if_neg h1]
    by_cases h2 : (0 : Int) ≤ (findWinningMoveP b.grid (getOpponent ai)).1
    · rw [if_pos h2]
      rcases findWinningMoveLoopP_cases b.grid (getOpponent ai) cells with hc | ⟨hmem, hemp⟩
      · rw [findWinningMoveP, hc] at h2
        norm_num at h2
      · refine Or.inr (Or.inr ?_)
        rw [findWinningMoveP]
        exact moveOk_some b _ ((mem_cells_pair _).mp hmem) hemp
    · rw [if_neg h2]
      by_cases h3 : (0 : Int) ≤ (findOpenFourMoveP b.grid ai.player).1
      · rw [if_pos h3]
        rcases findOpenFourMoveLoopP_cases b.grid ai.player cells with hc | ⟨hmem, hemp⟩
        · rw [findOpenFourMoveP, hc] at h3
          norm_num at h3
        · refine Or.inr (Or.inr ?_)
          rw [findOpenFourMoveP]
          exact moveOk_some b _ ((mem_cells_pair _).mp hmem) hemp
      · rw [if_neg h3]
        by_cases h4 : (0 : Int) ≤ (findOpenFourMoveP b.grid (getOpponent ai)).1
        · rw [if_pos h4]
          rcases findOpenFourMoveLoopP_cases b.grid (getOpponent ai) cells with
            hc | ⟨hmem, hemp⟩
          · rw [findOpenFourMoveP, hc] at h4
            norm_num at h4
          · refine Or.inr (Or.inr ?_)
            rw [findOpenFourMoveP]
            exact moveOk_some b _ ((mem_cells_pair _).mp hmem) hemp
        · rw [if_neg h4]
          by_cases h5 : (0 : Int) ≤ (findOpenThreeMoveP b.grid ai.player).1
          · rw [if_pos h5]
            rcases findOpenThreeMoveLoopP_cases b.grid ai.player cells with hc | ⟨hmem, hemp⟩
            · rw [findOpenThreeMoveP, hc] at h5
              norm_num at h5
            · refine Or.inr (Or.inr ?_)
              rw [findOpenThreeMoveP]
              exact moveOk_some b _ ((mem_cells_pair _).mp hmem) hemp
          · rw [if_neg h5]
            by_cases h6 : (0 : Int) ≤ (findThreatsMove ai b).1
            · rw [if_pos h6]
              rcases findThreatsMoveLoop_cases b.grid (getOpponent ai) cells with
                hc | ⟨hmem, hemp⟩
              · rw [findThreatsMove, hc] at h6
                norm_num at h6
              · refine Or.inr (Or.inr ?_)
                rw [findThreatsMove]
                exact moveOk_some b _ ((mem_cells_pair _).mp hmem) hemp
            · rw [if_neg h6]
              by_cases h7 :
                  (0 : Int) ≤ (cells.foldl (mediumBestStepP ai b) (-2147483648, (-1, -1))).2.1
              · rw [if_pos h7]
                rcases mediumBestFoldP_cases ai b cells (-2147483648, (-1, -1)) with
                  hc | ⟨hmem, hemp⟩
                · rw [hc] at h7
                  norm_num at h7
                · refine Or.inr (Or.inr ?_)
                  exact moveOk_some b _ ((mem_cells_pair _).mp hmem) hemp
              · rw [if_neg h7]
                exact makeEasyMoveP_cases ai b oracle

theorem makeMediumMoveP_full (ai : AI) (b : Board) (oracle : Nat)
    (hfull : noEmptyCellB b = true) : makeMediumMoveP ai b oracle = some (-1, -1) := by
  have hall := (noEmptyCellB_iff b).mp hfull
  rw [makeMediumMoveP]
  dsimp only
  rw [findWinningMoveP, findWinningMoveLoopP_full b.grid ai.player cells hall]
  rw [if_neg (by norm_num)]
  rw [findWinningMoveP, findWinningMoveLoopP_full b.grid (getOpponent ai) cells hall]
  rw [if_neg (by norm_num)]
  rw [findOpenFourMoveP, findOpenFourMoveLoopP_full b.grid ai.player cells hall]
  rw [if_neg (by norm_num)]
  rw [findOpenFourMoveP, findOpenFourMoveLoopP_full b.grid (getOpponent ai) cells hall]
  rw [if_neg (by norm_num)]
  rw [findOpenThreeMoveP, findOpenThreeMoveLoopP_full b.grid ai.player cells hall]
  rw [if_neg (by norm_num)]
  rw [findThreatsMove, findThreatsMoveLoop_full b.grid (getOpponent ai) cells hall]
  rw [if_neg (by norm_num)]
  rw [mediumBestFoldP_full ai b cells (-2147483648, (-1, -1)) hall]
  rw [if_neg (by norm_num)]
  exact makeEasyMoveP_full ai b oracle hfull

theorem makeHardMoveP_cases (ai : AI) (b : Board) (oracle : Nat) :
    makeHardMoveP ai b oracle = none ∨
    (makeHardMoveP ai b oracle = some (-1, -1) ∧ noEmptyCellB b = true) ∨
    moveOk b (makeHardMoveP ai b oracle) = true := by
  rw [makeHardMoveP]
  dsimp only
  by_cases h1 : (0 : Int) ≤ (findWinningMoveP b.grid ai.player).1
  · rw [if_pos h1]
    rcases findWinningMoveLoopP_cases b.grid ai.player cells with hc | ⟨hmem, hemp⟩
    · rw [findWinningMoveP, hc] at h1
      norm_num at h1
    · refine Or.inr (Or.inr ?_)
      rw [findWinningMoveP]
      exact moveOk_some b _ ((mem_cells_pair _).mp hmem) hemp
  · rw [if_neg h1]
    by_cases h2 : (0 : Int) ≤ (findWinningMoveP b.grid (getOpponent ai)).1
    · rw [if_pos h2]
      rcases findWinningMoveLoopP_cases b.grid (getOpponent ai) cells with hc | ⟨hmem, hemp⟩
      · rw [findWinningMoveP, hc] at h2
        norm_num at h2
      · refine Or.inr (Or.inr ?_)
        rw [findWinningMoveP]
        exact moveOk_some b _ ((mem_cells_pair _).mp hmem) hemp
    · rw [if_neg h2]
      by_cases h3 : (0 : Int) ≤ (findAdvancedThreatMoveP b.grid ai.player).1
      · rw [if_pos h3]
        rcases findAdvancedThreatMoveLoopP_cases b.grid ai.player cells with hc | ⟨hmem, hemp⟩
        · rw [findAdvancedThreatMoveP, hc] at h3
          norm_num at h3
        · refine Or.inr (Or.inr ?_)
          rw [findAdvancedThreatMoveP]
          exact moveOk_some b _ ((mem_cells_pair _).mp hmem) hemp
      · rw [if_neg h3]
        by_cases h4 : (0 : Int) ≤ (findAdvancedThreatMoveP b.grid (getOpponent ai)).1
        · rw [if_pos h4]
          rcases findAdvancedThreatMoveLoopP_cases b.grid (getOpponent ai) cells with
            hc | ⟨hmem, hemp⟩
          · rw [findAdvancedThreatMoveP, hc] at h4
            norm_num at h4
          · refine Or.inr (Or.inr ?_)
            rw [findAdvancedThreatMoveP]
            exact moveOk_some b _ ((mem_cells_pair _).mp hmem) hemp
        · rw [if_neg h4]
          by_cases h5 : (0 : Int) ≤ (findOpenThreeMoveP b.grid ai.player).1
          · rw [if_pos h5]
            rcases findOpenThreeMoveLoopP_cases b.grid ai.player cells with hc | ⟨hmem, hemp⟩
            · rw [findOpenThreeMoveP, hc] at h5
              norm_num at h5
            · refine Or.inr (Or.inr ?_)
              rw [findOpenThreeMoveP]
              exact moveOk_some b _ ((mem_cells_pair _).mp hmem) hemp
          · rw [if_neg h5]
            by_cases h6 : (0 : Int) ≤ (findOpenThreeMoveP b.grid (getOpponent ai)).1
            · rw [if_pos h6]
              rcases findOpenThreeMoveLoopP_cases b.grid (getOpponent ai) cells with
                hc | ⟨hmem, hemp⟩
              · rw [findOpenThreeMoveP, hc] at h6
                norm_num at h6
              · refine Or.inr (Or.inr ?_)
                rw [findOpenThreeMoveP]
                exact moveOk_some b _ ((mem_cells_pair _).mp hmem) hemp
            · rw [if_neg h6]
              by_cases h7 :
                  (0 : Int) ≤ (cells.foldl (hardBestStepP ai b) (-2147483648, (-1, -1))).2.1
              · rw [if_pos h7]
                rcases hardBestFoldP_cases ai b cells (-2147483648, (-1, -1)) with
                  hc | ⟨hmem, hemp⟩
                · rw [hc] at h7
                  norm_num at h7
                · refine Or.inr (Or.inr ?_)
                  exact moveOk_some b _ ((mem_cells_pair _).mp hmem) hemp
              · rw [if_neg h7]
                exact makeMediumMoveP_cases ai b oracle

theorem makeHardMoveP_full (ai : AI) (b : Board) (oracle : Nat)
    (hfull : noEmptyCellB b = true) : makeHardMoveP ai b oracle = some (-1, -1) := by
  have hall := (noEmptyCellB_iff b).mp hfull
  rw [makeHardMoveP]
  dsimp only
  rw [findWinningMoveP, findWinningMoveLoopP_full b.grid ai.player cells hall]
  rw [if_neg (by norm_num)]
  rw [findWinningMoveP, findWinningMoveLoopP_full b.grid (getOpponent ai) cells hall]
  rw [if_neg (by norm_num)]
  rw [findAdvancedThreatMoveP, findAdvancedThreatMoveLoopP_full b.grid ai.player cells hall]
  rw [if_neg (by norm_num)]
  rw [findAdvancedThreatMoveP,
    findAdvancedThreatMoveLoopP_full b.grid (getOpponent ai) cells hall]
  rw [if_neg (by norm_num)]
  rw [findOpenThreeMoveP, findOpenThreeMoveLoopP_full b.grid ai.player cells hall]
  rw [if_neg (by norm_num)]
  rw [findOpenThreeMoveP, findOpenThreeMoveLoopP_full b.grid (getOpponent ai) cells hall]
  rw [if_neg (by norm_num)]
  rw [hardBestFoldP_full ai b cells (-2147483648, (-1, -1)) hall]
  rw [if_neg (by norm_num)]
  exact makeMediumMoveP_full ai b oracle hfull

theorem makeMoveP_cases (ai : AI) (b : Board) (oracle : Nat) :
    makeMoveP ai b oracle = none ∨
    (makeMoveP ai b oracle = some (-1, -1) ∧ noEmptyCellB b = true) ∨
    moveOk b (makeMoveP ai b oracle) = true := by
  rw [makeMoveP]
  cases ai.difficulty
  · exact makeEasyMoveP_cases ai b oracle
  · exact makeMediumMoveP_cases ai b oracle
  · exact makeHardMoveP_cases ai b oracle

theorem makeMoveP_full (ai : AI) (b : Board) (oracle : Nat)
    (hfull : noEmptyCellB b = true) : makeMoveP ai b oracle = some (-1, -1) := by
  rw [makeMoveP]
  cases ai.difficulty
  · exact makeEasyMoveP_full ai b oracle hfull
  · exact makeMediumMoveP_full ai b oracle hfull
  · exact makeHardMoveP_full ai b oracle hfull

/-- C4 (amended): for every board, difficulty and draw, `MakeMove` returns
`(-1, -1)` exactly when the board has no empty cell; and whenever it returns at
all (the Easy tier's `rand.Intn` can panic — see the counterexample — and a
panic is modelled as `none`) and some cell is empty, the returned move is an
in-bounds empty cell. -/
theorem makeMove_none_iff_full (ai : AI) (b : Board) (oracle : Nat) :
    ((makeMove ai b oracle).1 = some (-1, -1) ↔ noEmptyCellB b = true) ∧
    ((makeMove ai b oracle).1 ≠ none → noEmptyCellB b = false →
      moveOk b (makeMove ai b oracle).1 = true) := by
  rw [makeMove_eq]
  dsimp only
  constructor
  · constructor
    · intro hres
      rcases makeMoveP_cases ai b oracle with hc | ⟨_, hfull⟩ | hok
      · rw [hc] at hres
        cases hres
      · exact hfull
      · rw [hres] at hok
        rw [moveOk_neg_one] at hok
        cases hok
    · intro hfull
      exact makeMoveP_full ai b oracle hfull
  · intro hne hempty
    rcases makeMoveP_cases ai b oracle with hc | ⟨hres, hfull⟩ | hok
    · exact absurd hc hne
    · rw [hfull] at hempty
      cases hempty
    · exact hok

set_option maxHeartbeats 16000000 in
set_option maxRecDepth 100000 in
/-- Witness for C4's amended theorem: on `boardOneStone` (not full) the Easy
agent returns an in-bounds empty cell and not `(-1, -1)`. -/
theorem makeMove_none_iff_full_witness :
    moveOk boardOneStone (makeMove aiWhiteEasy boardOneStone 0).1 = true ∧
    (makeMove aiWhiteEasy boardOneStone 0).1 ≠ some (-1, -1) := by
  have h := makeMove_none_iff_full aiWhiteEasy boardOneStone 0
  have hne : (makeMove aiWhiteEasy boardOneStone 0).1 ≠ none := by
    rw [makeMove_eq]
    dsimp only
    decide
  have hfa : noEmptyCellB boardOneStone = false := by decide
  refine ⟨h.2 hne hfa, ?_⟩
  intro hcontra
  have hfull := h.1.mp hcontra
  rw [hfa] at hfull
  cases hfull

/-- A type-valid board state on which the Easy tier's `rand.Intn` call panics:
two far-apart stones, and a move history whose last entry lies far off the
board, so the 5x-last-move-distance penalty drives every candidate weight
(hence the total) strongly negative. -/
def boardFarHistory : Board :=
  { grid := fun r c =>
      if r = 0 ∧ c = 0 then Player.black
      else if r = 14 ∧ c = 14 then Player.white
      else Player.empty
    currentTurn := Player.black
    moveHistory := [(0, 0), (1000, 1000)]
    gameFinished := false }

/-- The statement of C4 as frozen, at one agent/board/draw: the move is
`(-1, -1)` iff the board is full, and on a non-full board the cascade returns
an in-bounds empty cell. -/
def makeMoveClaimAt (ai : AI) (b : Board) (oracle : Nat) : Prop :=
  ((makeMove ai b oracle).1 = some (-1, -1) ↔ noEmptyCellB b = true) ∧
  (noEmptyCellB b = false → moveOk b (makeMove ai b oracle).1 = true)

set_option maxHeartbeats 16000000 in
set_option maxRecDepth 100000 in
/-- Counterexample to C4 as stated: on `boardFarHistory` the Easy tier reaches
the weighted draw with total weight `-591901`, so `rand.Intn` panics (`none`)
and no cell is returned although 223 cells are empty. -/
theorem makeMove_can_panic : ¬ makeMoveClaimAt aiWhiteEasy boardFarHistory 0 := by
  intro h
  have hm : (makeMove aiWhiteEasy boardFarHistory 0).1 = none := by
    rw [makeMove_eq]
    dsimp only
    decide
  have h2 := h.2 (by decide)
  rw [hm] at h2
  rw [show moveOk boardFarHistory none = false from rfl] at h2
  cases h2

/-- The in-bounds cells of the 9-cell window of offsets `-4..4` along an axis,
in traversal order (the spec's window). -/
def windowCells (g : Grid) (row col dRow dCol : Int) (l : List Int) : List Player :=
  l.filterMap fun i =>
    let r := row + dRow * i
    let c := col + dCol * i
    if r < 0 ∨ boardSize ≤ r ∨ c < 0 ∨ boardSize ≤ c then none else some (g r c)

/-- Length of the run of `p` at the head of the list. -/
def leadRun (p : Player) : List Player → Nat
  | [] => 0
  | x :: l => if x = p then 1 + leadRun p l else 0

/-- Length of the longest contiguous run of `p` in the list (the spec's
"longest contiguous run in the window"). -/
def maxRun (p : Player) : List Player → Nat
  | [] => 0
  | x :: l => max (if x = p then 1 + leadRun p l else 0) (maxRun p l)

/-- The running form of the longest-run computation, carrying the current run. -/
def runFold (p : Player) : Nat → List Player → Nat
  | cur, [] => cur
  | cur, x :: l => if x = p then runFold p (cur + 1) l else max cur (runFold p 0 l)

theorem leadRun_le_maxRun (p : Player) : ∀ l : List Player, leadRun p l ≤ maxRun p l := by
  intro l
  cases l with
  | nil => exact Nat.le_refl 0
  | cons x rest =>
    by_cases h : x = p
    · rw [leadRun, maxRun, if_pos h]
      exact le_max_left _ _
    · rw [leadRun, maxRun, if_neg h]
      exact Nat.zero_le _

theorem runFold_eq (p : Player) :
    ∀ (l : List Player) (cur : Nat),
      runFold p cur l = max (cur + leadRun p l) (maxRun p l) := by
  intro l
  induction l with
  | nil => intro cur; simp [runFold, leadRun, maxRun]
  | cons x rest ih =>
    intro cur
    by_cases h : x = p
    · rw [runFold, leadRun, maxRun]
      simp only [if_pos h]
      rw [ih]
      have := leadRun_le_maxRun p rest
      omega
    · rw [runFold, leadRun, maxRun]
      simp only [if_neg h]
      rw [ih]
      have := leadRun_le_maxRun p rest
      omega

theorem runFold_zero_eq_maxRun (p : Player) (l : List Player) :
    runFold p 0 l = maxRun p l := by
  rw [runFold_eq]
  have := leadRun_le_maxRun p l
  omega

theorem runFold_ge (p : Player) (l : List Player) (cur : Nat) : cur ≤ runFold p cur l := by
  rw [runFold_eq]
  omega

theorem getOpponent_ne_player (ai : AI) (hpl : ai.player ≠ Player.empty) :
    getOpponent ai ≠ ai.player := by
  rw [getOpponent]
  cases h : ai.player <;> simp_all

theorem getOpponent_ne_empty (ai : AI) : getOpponent ai ≠ Player.empty := by
  rw [getOpponent]
  by_cases h : ai.player = Player.black <;> simp [h]

theorem eq_opponent_of_ne (ai : AI) (hpl : ai.player ≠ Player.empty) (x : Player)
    (h1 : x ≠ ai.player) (h2 : x ≠ Player.empty) : x = getOpponent ai := by
  rw [getOpponent]
  cases hx : x <;> cases hp : ai.player <;> simp_all

theorem dirFold_eq_windowFold (ai : AI) (g : Grid) (row col dRow dCol : Int) :
    ∀ (l : List Int) (acc : DirAcc),
      l.foldl (dirStep ai g row col dRow dCol) acc =
        (windowCells g row col dRow dCol l).foldl (cellStep ai) acc := by
  intro l
  induction l with
  | nil => intro acc; rfl
  | cons i rest ih =>
    intro acc
    rw [List.foldl_cons, windowCells, List.filterMap_cons]
    rw [dirStep]
    dsimp only
    by_cases hv : row + dRow * i < 0 ∨ boardSize ≤ row + dRow * i ∨
        col + dCol * i < 0 ∨ boardSize ≤ col + dCol * i
    · rw [if_pos hv, if_pos hv, ih]
      rfl
    · rw [if_neg hv, if_neg hv, List.foldl_cons, ih]
      rfl

theorem cellStep_fold_spec (ai : AI) (hpl : ai.player ≠ Player.empty) :
    ∀ (w : List Player) (acc : DirAcc),
      acc.currentMySeq ≤ acc.maxMySeq → acc.currentOppSeq ≤ acc.maxOppSeq →
      (w.foldl (cellStep ai) acc).myCount = acc.myCount + w.count ai.player ∧
      (w.foldl (cellStep ai) acc).emptyCount = acc.emptyCount + w.count Player.empty ∧
      (w.foldl (cellStep ai) acc).maxMySeq =
        max acc.maxMySeq (runFold ai.player acc.currentMySeq w) ∧
      (w.foldl (cellStep ai) acc).maxOppSeq =
        max acc.maxOppSeq (runFold (getOpponent ai) acc.currentOppSeq w) := by
  intro w
  induction w with
  | nil =>
    intro acc hc1 hc2
    refine ⟨by simp, by simp, ?_, ?_⟩
    · rw [List.foldl_nil, runFold]
      omega
    · rw [List.foldl_nil, runFold]
      omega
  | cons x rest ih =>
    intro acc hc1 hc2
    rw [List.foldl_cons]
    by_cases hx : x = ai.player
    · rw [show cellStep ai acc x =
          ({ acc with myCount := acc.myCount + 1
                      currentMySeq := acc.currentMySeq + 1
                      currentOppSeq := 0
                      maxMySeq := if acc.maxMySeq < acc.currentMySeq + 1 then
                        acc.currentMySeq + 1 else acc.maxMySeq } : DirAcc) from by
        rw [cellStep, if_pos hx]]
      obtain ⟨h1, h2, h3, h4⟩ := ih
        { acc with myCount := acc.myCount + 1
                   currentMySeq := acc.currentMySeq + 1
                   currentOppSeq := 0
                   maxMySeq := if acc.maxMySeq < acc.currentMySeq + 1 then
                     acc.currentMySeq + 1 else acc.maxMySeq }
        (by dsimp only; split <;> omega) (by dsimp only; omega)
      rw [h1, h2, h3, h4]
      dsimp only
      have hxo : x ≠ getOpponent ai := by
        rw [hx]
        exact fun hcontra => getOpponent_ne_player ai hpl hcontra.symm
      have hxe : x ≠ Player.empty := by
        rw [hx]
        exact hpl
      refine ⟨?_, ?_, ?_, ?_⟩
      · rw [List.count_cons, if_pos (by simp [hx])]
        omega
      · rw [List.count_cons, if_neg (by simp [hxe])]
        omega
      · rw [runFold, if_pos hx]
        have hge := runFold_ge ai.player rest (acc.currentMySeq + 1)
        split <;> omega
      · rw [runFold, if_neg hxo]
        omega
    · by_cases hxe : x = Player.empty
      · rw [show cellStep ai acc x =
            ({ acc with emptyCount := acc.emptyCount + 1
                        currentMySeq := 0
                        currentOppSeq := 0 } : DirAcc) from by
          rw [cellStep, if_neg hx, if_pos hxe]]
        obtain ⟨h1, h2, h3, h4⟩ := ih
          { acc with emptyCount := acc.emptyCount + 1
                     currentMySeq := 0
                     currentOppSeq := 0 }
          (by dsimp only; omega) (by dsimp only; omega)
        rw [h1, h2, h3, h4]
        dsimp only
        have hxo : x ≠ getOpponent ai := by
          rw [hxe]
          exact fun hcontra => getOpponent_ne_empty ai hcontra.symm
        refine ⟨?_, ?_, ?_, ?_⟩
        · rw [List.count_cons, if_neg (by simp [hx])]
          omega
        · rw [List.count_cons, if_pos (by simp [hxe])]
          omega
        · rw [runFold, if_neg hx]
          omega
        · rw [runFold, if_neg hxo]
          omega
      · have hxo : x = getOpponent ai := eq_opponent_of_ne ai hpl x hx hxe
        rw [show cellStep ai acc x =
            ({ acc with oppCount := acc.oppCount + 1
                        currentOppSeq := acc.currentOppSeq + 1
                        currentMySeq := 0
                        maxOppSeq := if acc.maxOppSeq < acc.currentOppSeq + 1 then
                          acc.currentOppSeq + 1 else acc.maxOppSeq } : DirAcc) from by
          rw [cellStep, if_neg hx, if_neg hxe]]
        obtain ⟨h1, h2, h3, h4⟩ := ih
          { acc with oppCount := acc.oppCount + 1
                     currentOppSeq := acc.currentOppSeq + 1
                     currentMySeq := 0
                     maxOppSeq := if acc.maxOppSeq < acc.currentOppSeq + 1 then
                       acc.currentOppSeq + 1 else acc.maxOppSeq }
          (by dsimp only; omega) (by dsimp only; split <;> omega)
        rw [h1, h2, h3, h4]
        dsimp only
        refine ⟨?_, ?_, ?_, ?_⟩
        · rw [List.count_cons, if_neg (by simp [hx])]
          omega
        · rw [List.count_cons, if_neg (by simp [hxe])]
          omega
        · rw [runFold, if_neg hx]
          omega
        · rw [runFold, if_pos hxo]
          have hge := runFold_ge (getOpponent ai) rest (acc.currentOppSeq + 1)
          split <;> omega

/-- The spec's per-axis directional score: scan the in-bounds cells of the
9-cell window, tally the longest own run, the longest opponent run, the own
stones and the empties, and apply the scoring table. -/
def evaluateDirectionSpec (ai : AI) (g : Grid) (row col dRow dCol : Int) : Int :=
  let w := windowCells g row col dRow dCol offsets
  let ownMax := maxRun ai.player w
  let oppMax := maxRun (getOpponent ai) w
  let empties := w.count Player.empty
  let ownCount := w.count ai.player
  (if 4 ≤ ownMax then (2000 : Int)
    else if ownMax = 3 ∧ 2 ≤ empties then 1000
    else if ownMax = 2 ∧ 3 ≤ empties then 100
    else 0) +
  (if 3 ≤ oppMax then (1500 : Int)
    else if oppMax = 2 ∧ 3 ≤ empties then 200
    else 0) +
  (ownCount : Int) * 10 + (empties : Int) * 2

theorem evaluateDirection_eq_spec (ai : AI) (g : Grid) (row col dRow dCol : Int)
    (hpl : ai.player ≠ Player.empty) :
    evaluateDirection ai g row col dRow dCol = evaluateDirectionSpec ai g row col dRow dCol := by
  rw [evaluateDirection, evaluateDirectionSpec]
  rw [dirFold_eq_windowFold]
  obtain ⟨h1, h2, h3, h4⟩ := cellStep_fold_spec ai hpl
    (windowCells g row col dRow dCol offsets) dirAccInit (Nat.le_refl 0) (Nat.le_refl 0)
  rw [h1, h2, h3, h4]
  rw [show dirAccInit.myCount = 0 from rfl, show dirAccInit.emptyCount = 0 from rfl,
    show dirAccInit.maxMySeq = 0 from rfl, show dirAccInit.maxOppSeq = 0 from rfl,
    show dirAccInit.currentMySeq = 0 from rfl, show dirAccInit.currentOppSeq = 0 from rfl]
  rw [runFold_zero_eq_maxRun, runFold_zero_eq_maxRun]
  rw [Nat.zero_add, Nat.zero_add]
  rw [Nat.max_eq_right (Nat.zero_le _), Nat.max_eq_right (Nat.zero_le _)]

/-- The spec's formula for the base position score (C7): win checks first, then
the sum of the per-axis window scores, minus 10x the Manhattan distance to the
centre and 5x the Manhattan distance to the most recent move when the history
is non-empty. -/
def evaluatePositionSpec (ai : AI) (b : Board) (row col : Int) : Int :=
  if checkWin (setCell b.grid row col ai.player) row col then 10000
  else if checkWin (setCell b.grid row col (getOpponent ai)) row col then 9000
  else
    let dirScore :=
      directions.foldl (fun s d => s + evaluateDirectionSpec ai b.grid row col d.1 d.2) 0
    let centerDist : Int :=
      ((row - boardSize / 2).natAbs : Int) + ((col - boardSize / 2).natAbs : Int)
    let score1 := dirScore - centerDist * 10
    if 0 < b.moveHistory.length then
      let lastMove := b.moveHistory.getD (b.moveHistory.length - 1) (0, 0)
      score1 - (((row - lastMove.1).natAbs : Int) + ((col - lastMove.2).natAbs : Int)) * 5
    else score1

/-- C7: for an agent that plays an actual colour and an empty cell,
`evaluatePosition` computes exactly the spec's formula: 10000 for an immediate
speculative win, else 9000 for an immediate speculative opponent win, else the
sum over the 4 axes of the window score (longest-run thresholds 2000/1000/100
for the agent, 1500/200 for the opponent, +10 per own stone and +2 per empty in
the window), minus 10x the centre distance, minus 5x the distance to the most
recent move when the history is non-empty. -/
theorem evaluatePosition_formula (ai : AI) (b : Board) (row col : Int)
    (hempty : b.grid row col = Player.empty) (hpl : ai.player ≠ Player.empty) :
    (evaluatePosition ai b row col).1 = evaluatePositionSpec ai b row col := by
  rw [evaluatePosition_eq ai b row col hempty]
  dsimp only
  rw [evaluatePositionP, evaluatePositionSpec]
  have hfun : (fun (s : Int) (d : Int × Int) => s + evaluateDirection ai b.grid row col d.1 d.2)
      = fun (s : Int) (d : Int × Int) => s + evaluateDirectionSpec ai b.grid row col d.1 d.2 := by
    funext s d
    rw [evaluateDirection_eq_spec ai b.grid row col d.1 d.2 hpl]
  rw [hfun]

/-- Witness for C7 at a concrete empty cell of `boardOneStone`. -/
theorem evaluatePosition_formula_witness :
    boardOneStone.grid 5 5 = Player.empty ∧
    (evaluatePosition aiWhiteEasy boardOneStone 5 5).1 =
      evaluatePositionSpec aiWhiteEasy boardOneStone 5 5 :=
  ⟨rfl, evaluatePosition_formula aiWhiteEasy boardOneStone 5 5 (by decide) (by decide)⟩

end Gomoku
